import Mathlib

/-!
Verification of the summer-camp scheduling and booking engine.

The development shallowly embeds the scheduling core of the web application:
week generation from school dates (`calculate_weeks_for_user`), incremental
trip re-blocking (`update_week_blocking`), the session/week date matcher
(`api_sessions_for_week`), the duration calculator
(`calculate_duration_weeks`), booking creation (`booking_new`,
`api_quick_booking`), booking state transitions (`booking_change_state`) and
the legacy-booking repair pass (`bookings_cleanup`).

Calendar dates are modelled as integers counting days, with day 0 a Monday;
`d % 7` therefore coincides with Python's `date.weekday()` (0 = Monday,
6 = Sunday).  Datastore entities are records; datastore keys are strings.
The persistence layer, authentication, HTML rendering and Google-Calendar
sync are external collaborators: the embedding keeps the store as explicit
lists and omits the calendar side effects, which never influence the data
written to Booking/Week records apart from the opaque `calendar_event_id`.
-/

/-- A child, reduced to the school-year boundary dates the week generator
reads (`kid.get('last_day_of_school')` / `kid.get('first_day_of_school')`,
both possibly unset). -/
structure Kid where
  last_day_of_school : Option Int
  first_day_of_school : Option Int
  deriving DecidableEq, Repr

/-- A family trip with an inclusive date span. -/
structure Trip where
  start_date : Int
  end_date : Int
  deriving DecidableEq, Repr

/-- A camp session: optional date range plus the stored `duration_weeks`
(read with `session_entity.get('duration_weeks', 1)`). -/
structure Session where
  session_start_date : Option Int
  session_end_date : Option Int
  duration_weeks : Option Nat
  deriving DecidableEq, Repr

/-- A generated summer week.  `id` models the datastore key
(`week.key.name`). -/
structure Week where
  id : String
  week_number : Nat
  start_date : Int
  end_date : Int
  is_blocked : Bool
  deriving DecidableEq, Repr

/-- A booking row.  `id` models the datastore key (`booking.key.name`).
The three group fields are optional because legacy rows may lack them.
Presentation-only fields (preference order, care flags, notes, friends,
`calendar_event_id`) are omitted: no scheduling decision reads them. -/
structure Booking where
  id : String
  kid_id : String
  session_id : String
  week_id : String
  state : String
  booking_group_id : Option String
  week_of_session : Option Nat
  total_weeks : Option Nat
  deriving DecidableEq, Repr

/-! ## Int/Duration Calculator (camps.py, `calculate_duration_weeks`) -/

/-- `math.ceil(n / 5)` for an integer `n`, division exact.  With the
Euclidean `/` on `Int`, `(n + 4) / 5` is exactly the ceiling of `n / 5`. -/
def ceil_div_5 (n : Int) : Int := (n + 4) / 5

/-- camps.py `calculate_duration_weeks`.  `total_days` is the inclusive day
count; a span that starts on a Monday and ends on a Friday counts only its
weekdays, via the source's day-by-day loop (here: `countP` over the same
iteration range); the result is `math.ceil(total_days / 5)`.  A missing
start or end date yields 1. -/
def calculate_duration_weeks (start_date end_date : Option Int) : Int :=
  match start_date, end_date with
  | some s, some e =>
      let total_days : Int := e - s + 1
      if s % 7 = 0 ∧ e % 7 = 4 then
        ceil_div_5 ((List.range total_days.toNat).countP
          (fun (k : Nat) => decide ((s + (k : Int)) % 7 < 5)) : Int)
      else
        ceil_div_5 total_days
  | _, _ => 1

/-! ## Week Generator (schedule.py, `calculate_weeks_for_user`) -/

/-- The `earliest_last_day` loop: fold keeping the smallest
`last_day_of_school` seen, skipping kids without one. -/
def earliest_last_day (kids : List Kid) : Option Int :=
  kids.foldl
    (fun acc kid =>
      match kid.last_day_of_school with
      | some d =>
          match acc with
          | none => some d
          | some a => if d < a then some d else some a
      | none => acc)
    none

/-- The `latest_first_day` loop: fold keeping the largest
`first_day_of_school` seen, skipping kids without one. -/
def latest_first_day (kids : List Kid) : Option Int :=
  kids.foldl
    (fun acc kid =>
      match kid.first_day_of_school with
      | some d =>
          match acc with
          | none => some d
          | some a => if d > a then some d else some a
      | none => acc)
    none

/-- First Monday of summer: `days_until_monday = (7 - weekday) % 7`, bumped
to a full 7 when it is 0 (a Monday last-day starts summer the next
Monday). -/
def first_monday (d : Int) : Int :=
  let days_until : Int := (7 - d % 7) % 7
  d + (if days_until = 0 then 7 else days_until)

/-- The trip-overlap test used by both blocking passes:
`trip_start <= week_end and trip_end >= week_start`. -/
def trip_blocks_week (trips : List Trip) (week_start week_end : Int) : Bool :=
  trips.any (fun t => decide (t.start_date ≤ week_end) && decide (t.end_date ≥ week_start))

/-- The week-generation loop.  The source loops `while current_monday <
latest_first_day`, computes `week_end = current + 4` and breaks when
`week_end >= latest_first_day`; a week is therefore emitted exactly when
`current + 4 < latest` (the outer `current < latest` test is implied).
The datastore key is modelled by the week number's decimal string. -/
def generate_weeks (latest : Int) (current : Int) (week_number : Nat) : List Week :=
  if h : current + 4 < latest then
    { id := toString week_number, week_number := week_number,
      start_date := current, end_date := current + 4, is_blocked := false }
      :: generate_weeks latest (current + 7) (week_number + 1)
  else []
termination_by (latest - current).toNat
decreasing_by simp_wf; omega

/-- schedule.py `calculate_weeks_for_user`: returns `[]` without kids or
without both bounds; otherwise generates weeks from the first Monday and
then applies trip blocking to each generated week (the source updates
`is_blocked` in place on the freshly created entities). -/
def calculate_weeks_for_user (kids : List Kid) (trips : List Trip) : List Week :=
  if kids.isEmpty then []
  else
    match earliest_last_day kids, latest_first_day kids with
    | some earliest, some latest =>
        (generate_weeks latest (first_monday earliest) 1).map
          (fun w => { w with is_blocked := trip_blocks_week trips w.start_date w.end_date })
    | _, _ => []

/-- schedule.py `update_week_blocking`: recomputes `is_blocked` on the
existing weeks in place, issuing a write only when the stored flag differs
from the recomputed one.  Returns the updated weeks and the number of
writes issued. -/
def update_week_blocking (weeks : List Week) (trips : List Trip) : List Week × Nat :=
  (weeks.map (fun w =>
      let b := trip_blocks_week trips w.start_date w.end_date
      if w.is_blocked = b then w else { w with is_blocked := b }),
   weeks.countP (fun w => w.is_blocked != trip_blocks_week trips w.start_date w.end_date))

/-! ## Session Matcher (schedule.py, `api_sessions_for_week`) -/

/-- The per-session test of `api_sessions_for_week`: a session without a
start or end date is always included; otherwise it is included exactly when
`session_start <= week_end and session_end >= week_start`. -/
def api_session_included (sess : Session) (week : Week) : Bool :=
  match sess.session_start_date, sess.session_end_date with
  | some ss, some se => decide (ss ≤ week.end_date) && decide (se ≥ week.start_date)
  | _, _ => true

/-- The session list returned by `api_sessions_for_week` for one week
(camp grouping and presentation enrichment omitted). -/
def api_sessions_for_week (sessions : List Session) (week : Week) : List Session :=
  sessions.filter (fun s => api_session_included s week)

/-! ## Booking creation (schedule.py, `booking_new` / `api_quick_booking`) -/

/-- One collected collision warning: the needed week it concerns and the
state of the existing booking found there (the source also interpolates kid
and camp names, which are presentation only). -/
structure Collision where
  week_id : String
  week_number : Nat
  existing_state : String
  deriving DecidableEq, Repr

/-- The collision scan of `booking_new`: for every needed week, every
existing booking of the same kid in that week yields a warning. -/
def collisions_for (bookings : List Booking) (kid_id : String)
    (weeks_needed : List Week) : List Collision :=
  weeks_needed.flatMap (fun w =>
    (bookings.filter (fun b => b.kid_id == kid_id && b.week_id == w.id)).map
      (fun b => { week_id := w.id, week_number := w.week_number, existing_state := b.state }))

/-- The failure modes of the booking form's creation path, in source
order. -/
inductive BookingError where
  | weekNotFound : BookingError
  | notEnoughWeeks (duration : Nat) : BookingError
  | outsideSessionRange (week_id : String) : BookingError
  | blockedWeek (week_id : String) : BookingError
  | bookedWithConflicts (warnings : List Collision) : BookingError
  | existingBookedConflict (warnings : List Collision) : BookingError
  deriving DecidableEq, Repr

/-- The creation loop `for week_num, w in enumerate(weeks_needed, start=1)`:
one Booking per needed week, sharing `booking_group_id` and `total_weeks`,
with `week_of_session` counting from `k`.  Datastore keys are modelled as
derived from the fresh group id. -/
def make_group_bookings (kid_id session_id state gid : String) (total : Nat) :
    Nat → List Week → List Booking
  | _, [] => []
  | k, w :: ws =>
      { id := gid ++ "." ++ toString k, kid_id := kid_id, session_id := session_id,
        week_id := w.id, state := state, booking_group_id := some gid,
        week_of_session := some k, total_weeks := some total }
        :: make_group_bookings kid_id session_id state gid total (k + 1) ws

/-- The session-date window check of the booking form: when both session
dates are present, a needed week is rejected when it lies entirely outside
the session's range widened by `buffer_days = 7` on each side
(`week_end < session_start - 7 or week_start > session_end + 7`); the first
such week is reported.  With a missing session date the check is skipped. -/
def session_range_violation (sess : Session) (weeks_needed : List Week) : Option Week :=
  match sess.session_start_date, sess.session_end_date with
  | some ss, some se =>
      weeks_needed.find? (fun w =>
        decide (w.end_date < ss - 7) || decide (w.start_date > se + 7))
  | _, _ => none

/-- schedule.py `booking_new`, POST branch, from the `duration_weeks` read
onward (the preceding kid/session/week ownership fetches are access-control
glue).  Checks run in source order: starting-week lookup in the ordered
week list, capacity, the +-7-day session-date window, trip blocking, then
the collision scan; only afterwards are the group's bookings created.
`gid` stands for the freshly generated `uuid4` group id. -/
def booking_new (bookings : List Booking) (week_list : List Week) (sess : Session)
    (kid_id session_id week_id state gid : String) : Except BookingError (List Booking) :=
  let duration := sess.duration_weeks.getD 1
  match week_list.findIdx? (fun w => w.id == week_id) with
  | none => .error .weekNotFound
  | some start_idx =>
    if week_list.length < start_idx + duration then .error (.notEnoughWeeks duration)
    else
      let weeks_needed := (week_list.drop start_idx).take duration
      match session_range_violation sess weeks_needed with
      | some w => .error (.outsideSessionRange w.id)
      | none =>
        match weeks_needed.find? (fun w => w.is_blocked) with
        | some w => .error (.blockedWeek w.id)
        | none =>
          let warnings := collisions_for bookings kid_id weeks_needed
          let has_booked_conflict := warnings.any (fun c => c.existing_state == "booked")
          if state == "booked" && !warnings.isEmpty then
            .error (.bookedWithConflicts warnings)
          else if has_booked_conflict then
            .error (.existingBookedConflict warnings)
          else
            .ok (make_group_bookings kid_id session_id state gid duration 1 weeks_needed)

/-- `booking_new` as a store transformer: on success the created rows are
persisted, on failure the store is untouched (every `create_entity` call in
the source sits after the last validation). -/
def booking_new_db (bookings : List Booking) (week_list : List Week) (sess : Session)
    (kid_id session_id week_id state gid : String) : List Booking × Option BookingError :=
  match booking_new bookings week_list sess kid_id session_id week_id state gid with
  | .ok created => (bookings ++ created, none)
  | .error e => (bookings, some e)

/-- The failure modes of the quick-booking API path, in source order. -/
inductive QuickBookingError where
  | weekNotFound : QuickBookingError
  | notEnoughWeeks (duration : Nat) : QuickBookingError
  | blockedWeek (week_id : String) : QuickBookingError
  | alreadyBooked (week_id : String) : QuickBookingError
  deriving DecidableEq, Repr

/-- schedule.py `api_quick_booking`, from the `duration_weeks` read onward:
week lookup, capacity, trip blocking, then rejection on any existing
`booked` row in an occupied slot; creation is always in state `idea`.
There is no session-date window check on this path. -/
def api_quick_booking (bookings : List Booking) (week_list : List Week) (sess : Session)
    (kid_id session_id week_id gid : String) : Except QuickBookingError (List Booking) :=
  let duration := sess.duration_weeks.getD 1
  match week_list.findIdx? (fun w => w.id == week_id) with
  | none => .error .weekNotFound
  | some start_idx =>
    if week_list.length < start_idx + duration then .error (.notEnoughWeeks duration)
    else
      let weeks_needed := (week_list.drop start_idx).take duration
      match weeks_needed.find? (fun w => w.is_blocked) with
      | some w => .error (.blockedWeek w.id)
      | none =>
        match weeks_needed.find? (fun w =>
            bookings.any (fun b =>
              b.kid_id == kid_id && b.week_id == w.id && b.state == "booked")) with
        | some w => .error (.alreadyBooked w.id)
        | none =>
            .ok (make_group_bookings kid_id session_id "idea" gid duration 1 weeks_needed)

/-- `api_quick_booking` as a store transformer. -/
def api_quick_booking_db (bookings : List Booking) (week_list : List Week) (sess : Session)
    (kid_id session_id week_id gid : String) : List Booking × Option QuickBookingError :=
  match api_quick_booking bookings week_list sess kid_id session_id week_id gid with
  | .ok created => (bookings ++ created, none)
  | .error e => (bookings, some e)

/-! ## Booking state transitions (schedule.py, `booking_change_state`) -/

/-- One blocking conflict reported by the transition-to-`booked` scan: the
group member's week and the state of the other booking found there. -/
structure StateConflict where
  week_id : String
  other_state : String
  deriving DecidableEq, Repr

/-- The failure modes of `booking_change_state`. -/
inductive StateChangeError where
  | notFound : StateChangeError
  | invalidState : StateChangeError
  | conflicts (cs : List StateConflict) : StateChangeError
  deriving DecidableEq, Repr

/-- Python's truthiness test `if booking_group_id:` on the stored group id:
`None` and the empty string both count as absent. -/
def truthy_group_id (b : Booking) : Option String :=
  match b.booking_group_id with
  | some g => if g = "" then none else some g
  | none => none

/-- The group of bookings affected by a state change: all rows sharing a
truthy `booking_group_id`, or the single row itself. -/
def state_group (bookings : List Booking) (booking : Booking) : List Booking :=
  match truthy_group_id booking with
  | some g => bookings.filter (fun b => b.booking_group_id == some g)
  | none => [booking]

/-- The transition-to-`booked` conflict scan: for every group member, every
other booking of the same kid in the same week counts, in any state, unless
it shares the (truthy) group id or is the member row itself. -/
def state_conflicts (bookings : List Booking) (booking : Booking) : List StateConflict :=
  (state_group bookings booking).flatMap (fun m =>
    (bookings.filter (fun o =>
        o.kid_id == m.kid_id && o.week_id == m.week_id &&
        !(match truthy_group_id booking with
          | some g => o.booking_group_id == some g
          | none => false) &&
        o.id != m.id)).map
      (fun o => { week_id := m.week_id, other_state := o.state }))

/-- Whether row `b` is one of the rows the update loop of
`booking_change_state` writes: it shares the target's truthy group id, or,
for an ungrouped target, is the target row itself. -/
def is_group_member (booking b : Booking) : Bool :=
  match truthy_group_id booking with
  | some g => b.booking_group_id == some g
  | none => b.id == booking.id

/-- The write applied to one stored row by the update loop of
`booking_change_state`: members get the new state, other rows are left
alone. -/
def apply_state_change (booking : Booking) (new_state : String) (b : Booking) : Booking :=
  if is_group_member booking b then { b with state := new_state } else b

/-- schedule.py `booking_change_state`: look up the booking, validate the
requested state, collect conflicts when promoting to `booked`, and on
success write the new state to every member of the group (calendar-event
creation is an external side effect and is omitted). -/
def booking_change_state (bookings : List Booking) (id new_state : String) :
    Except StateChangeError (List Booking) :=
  match bookings.find? (fun b => b.id == id) with
  | none => .error .notFound
  | some booking =>
    if ¬ (["idea", "preferred", "booked"].contains new_state) then .error .invalidState
    else
      let conflicts :=
        if new_state == "booked" then state_conflicts bookings booking else []
      if ¬ conflicts.isEmpty then .error (.conflicts conflicts)
      else
        .ok (bookings.map (apply_state_change booking new_state))

/-- `booking_change_state` as a store transformer: rejection happens before
any `update_entity` call, so the store is untouched on failure. -/
def booking_change_state_db (bookings : List Booking) (id new_state : String) :
    List Booking × Option StateChangeError :=
  match booking_change_state bookings id new_state with
  | .ok bs => (bs, none)
  | .error e => (bookings, some e)

/-! ## Legacy repair (schedule.py, `bookings_cleanup`) -/

/-- The per-booking body of the cleanup loop.  The group id is filled when
falsy (`None` or empty), `week_of_session` when `None` (the source tests
`is None`), `total_weeks` when falsy (`None` or 0); defaults are the row's
own key, 1 and 1.  The Bool reports whether an update was issued. -/
def cleanup_booking (b : Booking) : Booking × Bool :=
  let gid_missing : Bool :=
    match b.booking_group_id with
    | none => true
    | some g => g == ""
  let wos_missing : Bool := b.week_of_session == none
  let tw_missing : Bool :=
    match b.total_weeks with
    | none => true
    | some n => n == 0
  ({ b with
      booking_group_id := if gid_missing then some b.id else b.booking_group_id,
      week_of_session := if wos_missing then some 1 else b.week_of_session,
      total_weeks := if tw_missing then some 1 else b.total_weeks },
   gid_missing || wos_missing || tw_missing)

/-- schedule.py `bookings_cleanup`: apply the repair to every booking and
count the rows actually updated. -/
def bookings_cleanup (bookings : List Booking) : List Booking × Nat :=
  (bookings.map (fun b => (cleanup_booking b).1),
   bookings.countP (fun b => (cleanup_booking b).2))

/-! ## Invariants -/

/-- Two bookings do not violate booked-exclusivity: they are not both
`booked` for the same kid and week. -/
abbrev no_double_booked (a b : Booking) : Prop :=
  ¬ (a.state = "booked" ∧ b.state = "booked" ∧ a.kid_id = b.kid_id ∧ a.week_id = b.week_id)

/-- The booked-exclusivity invariant over a booking store: at most one
`booked` row per (kid, week) pair. -/
abbrev booked_unique (bookings : List Booking) : Prop :=
  bookings.Pairwise no_double_booked

/-- Datastore keys are unique. -/
abbrev ids_nodup (bookings : List Booking) : Prop :=
  (bookings.map Booking.id).Nodup

/-- Week datastore keys are unique. -/
abbrev week_ids_nodup (weeks : List Week) : Prop :=
  (weeks.map Week.id).Nodup

/-- Group sanity, true of every group the system writes: two distinct rows
of one (truthy) group never occupy the same (kid, week) slot. -/
abbrev groups_wf (bookings : List Booking) : Prop :=
  ∀ a ∈ bookings, ∀ b ∈ bookings, a.id ≠ b.id →
    ∀ g, g ≠ "" → a.booking_group_id = some g → b.booking_group_id = some g →
      ¬ (a.kid_id = b.kid_id ∧ a.week_id = b.week_id)

/-! ## General helper lemmas -/

theorem trip_blocks_week_iff (trips : List Trip) (ws we : Int) :
    trip_blocks_week trips ws we = true ↔
      ∃ t ∈ trips, t.start_date ≤ we ∧ t.end_date ≥ ws := by
  simp [trip_blocks_week, List.any_eq_true, Bool.and_eq_true, decide_eq_true_iff]

theorem countP_range_weekdays (q : Nat) :
    (List.range (7 * q + 5)).countP (fun k => decide (k % 7 < 5)) = 5 * q + 5 := by
  induction q with
  | zero => decide
  | succ n ih =>
      have h7 : 7 * (n + 1) + 5 = (7 * n + 5) + 7 := by ring
      rw [h7, List.range_add, List.countP_append, ih, List.countP_map]
      have hwin : (List.range 7).countP
          ((fun k => decide (k % 7 < 5)) ∘ (fun x => (7 * n + 5) + x)) = 5 := by
        rw [List.countP_congr (q := fun k => decide ((5 + k) % 7 < 5))]
        · decide
        · intro x hx
          simp only [Function.comp_apply, decide_eq_true_iff]
          omega
      rw [hwin]
      ring

theorem weekday_count_eq (s e : Int) (hs : s % 7 = 0) (he : e % 7 = 4) (hle : s ≤ e) :
    (((List.range (e - s + 1).toNat).countP
        (fun (k : Nat) => decide ((s + (k : Int)) % 7 < 5)) : Nat) : Int)
      = 5 * ((e - s + 1) / 7) + 5 := by
  have hmod : (e - s + 1) % 7 = 5 := by omega
  have hq : e - s + 1 = 7 * ((e - s + 1) / 7) + 5 := by omega
  have hqnn : 0 ≤ (e - s + 1) / 7 := by omega
  have htn : (e - s + 1).toNat = 7 * ((e - s + 1) / 7).toNat + 5 := by omega
  rw [htn]
  rw [List.countP_congr (q := fun k => decide (k % 7 < 5))]
  · rw [countP_range_weekdays]; omega
  · intro x hx
    simp only [decide_eq_true_iff]
    omega

/-! ## C8: the Session Matcher -/

/-- C8.  The sessions-for-week filter includes a session exactly when a
session date is absent or the inclusive interval overlap
`session_start <= week_end AND session_end >= week_start` holds; sharing a
single boundary day therefore matches, and no buffer days are applied on
either side (the three spec examples are instances). -/
theorem session_matcher_spec :
    (∀ (sessions : List Session) (week : Week) (s : Session),
        s ∈ api_sessions_for_week sessions week ↔
          s ∈ sessions ∧ api_session_included s week = true) ∧
    (∀ (s : Session) (week : Week),
        api_session_included s week = true ↔
          (s.session_start_date = none ∨ s.session_end_date = none ∨
           ∃ ss se, s.session_start_date = some ss ∧ s.session_end_date = some se ∧
             ss ≤ week.end_date ∧ se ≥ week.start_date)) ∧
    (api_session_included ⟨some 7, some 11, none⟩ ⟨"w", 1, 15, 19, false⟩ = false ∧
     api_session_included ⟨some 19, some 25, none⟩ ⟨"w", 1, 15, 19, false⟩ = true ∧
     api_session_included ⟨none, none, none⟩ ⟨"w", 1, 15, 19, false⟩ = true) := by
  refine ⟨?_, ?_, by decide, by decide, by decide⟩
  · intro sessions week s
    simp [api_sessions_for_week, List.mem_filter]
  · intro s week
    rcases s with ⟨ss?, se?, d⟩
    rcases ss? with _ | ss <;> rcases se? with _ | se <;>
      simp [api_session_included, Bool.and_eq_true, decide_eq_true_iff]

/-! ## C5: the Int/Duration Calculator -/

/-- C5.  With a missing date the duration is 1.  For `start <= end`, on a
Monday-to-Friday span the source's weekday-counting loop agrees with the
arithmetic `full_weeks * 5 + min(remainder, 5)` and the result is its
5-day ceiling; otherwise the result is the ceiling of the raw inclusive day
count; in all cases the result is at least 1.  The final conjunct checks
that `ceil_div_5` really is the ceiling of division by 5. -/
theorem duration_weeks_spec :
    (∀ s e : Option Int, s = none ∨ e = none → calculate_duration_weeks s e = 1) ∧
    (∀ s e : Int, s ≤ e →
      ((s % 7 = 0 ∧ e % 7 = 4) →
        calculate_duration_weeks (some s) (some e)
          = ceil_div_5 (((e - s + 1) / 7) * 5 + min ((e - s + 1) % 7) 5)) ∧
      (¬ (s % 7 = 0 ∧ e % 7 = 4) →
        calculate_duration_weeks (some s) (some e) = ceil_div_5 (e - s + 1)) ∧
      1 ≤ calculate_duration_weeks (some s) (some e)) ∧
    (∀ n : Int, n ≤ 5 * ceil_div_5 n ∧ 5 * (ceil_div_5 n - 1) < n) := by
  refine ⟨?_, ?_, ?_⟩
  · rintro s e (rfl | rfl)
    · rfl
    · cases s <;> rfl
  · intro s e hle
    by_cases hmf : s % 7 = 0 ∧ e % 7 = 4
    · have hcount := weekday_count_eq s e hmf.1 hmf.2 hle
      have hmod : (e - s + 1) % 7 = 5 := by omega
      have hqnn : 0 ≤ (e - s + 1) / 7 := by omega
      refine ⟨fun _ => ?_, fun hc => absurd hmf hc, ?_⟩
      · simp only [calculate_duration_weeks, if_pos hmf]
        rw [hcount, hmod]
        congr 1
        omega
      · simp only [calculate_duration_weeks, if_pos hmf]
        rw [hcount]
        unfold ceil_div_5
        omega
    · refine ⟨fun hc => absurd hc hmf, fun _ => ?_, ?_⟩
      · simp only [calculate_duration_weeks, if_neg hmf]
      · simp only [calculate_duration_weeks, if_neg hmf]
        unfold ceil_div_5
        omega
  · intro n
    unfold ceil_div_5
    omega

/-- Witness for `duration_weeks_spec` at the Monday-to-Friday span of days
0..11 (two Monday–Friday weeks around one weekend, inclusive day count 12)
and at the plain 3-day span 0..2. -/
theorem duration_weeks_spec_witness :
    calculate_duration_weeks (some 0) (some 11)
        = ceil_div_5 (((11 - 0 + 1) / 7) * 5 + min ((11 - 0 + 1) % 7) 5) ∧
      1 ≤ calculate_duration_weeks (some 0) (some 11) ∧
      calculate_duration_weeks (some 0) (some 2) = ceil_div_5 (2 - 0 + 1) ∧
      calculate_duration_weeks none (some 3) = 1 :=
  ⟨(duration_weeks_spec.2.1 0 11 (by decide)).1 (by decide),
   (duration_weeks_spec.2.1 0 11 (by decide)).2.2,
   (duration_weeks_spec.2.1 0 2 (by decide)).2.1 (by decide),
   duration_weeks_spec.1 none (some 3) (Or.inl rfl)⟩

/-! ## C7: trip blocking, incremental pass -/

theorem update_week_blocking_eq_map (weeks : List Week) (trips : List Trip) :
    (update_week_blocking weeks trips).1
      = weeks.map (fun w => { w with is_blocked := trip_blocks_week trips w.start_date w.end_date }) := by
  unfold update_week_blocking
  refine List.map_congr_left ?_
  intro w _
  by_cases hb : w.is_blocked = trip_blocks_week trips w.start_date w.end_date
  · rw [if_pos hb]
    cases w
    simp_all
  · rw [if_neg hb]

/-- C7.  Both blocking passes leave `is_blocked = true` exactly on weeks
overlapped by some trip (inclusive overlap `trip.start <= week.end AND
trip.end >= week.start`); the incremental pass keeps the week list itself
intact (same length, and every field except `is_blocked` untouched,
positionally), and a second run on unchanged trips returns the same weeks
and issues zero writes. -/
theorem week_blocking_spec :
    (∀ (kids : List Kid) (trips : List Trip) (w : Week),
        w ∈ calculate_weeks_for_user kids trips →
        (w.is_blocked = true ↔
          ∃ t ∈ trips, t.start_date ≤ w.end_date ∧ t.end_date ≥ w.start_date)) ∧
    (∀ (weeks : List Week) (trips : List Trip),
        (update_week_blocking weeks trips).1
          = weeks.map (fun w =>
              { w with is_blocked := trip_blocks_week trips w.start_date w.end_date }) ∧
        (∀ w ∈ (update_week_blocking weeks trips).1,
          (w.is_blocked = true ↔
            ∃ t ∈ trips, t.start_date ≤ w.end_date ∧ t.end_date ≥ w.start_date)) ∧
        update_week_blocking (update_week_blocking weeks trips).1 trips
          = ((update_week_blocking weeks trips).1, 0)) := by
  constructor
  · intro kids trips w hw
    unfold calculate_weeks_for_user at hw
    split at hw
    · simp at hw
    · split at hw
      · rcases List.mem_map.mp hw with ⟨w0, _, rfl⟩
        simpa using trip_blocks_week_iff trips w0.start_date (w0.end_date)
      · simp at hw
  · intro weeks trips
    have hmap := update_week_blocking_eq_map weeks trips
    refine ⟨hmap, ?_, ?_⟩
    · intro w hw
      rw [hmap] at hw
      rcases List.mem_map.mp hw with ⟨w0, _, rfl⟩
      simpa using trip_blocks_week_iff trips w0.start_date (w0.end_date)
    · have hfix : ∀ w ∈ (update_week_blocking weeks trips).1,
          w.is_blocked = trip_blocks_week trips w.start_date w.end_date := by
        intro w hw
        rw [hmap] at hw
        rcases List.mem_map.mp hw with ⟨w0, _, rfl⟩
        rfl
      unfold update_week_blocking
      refine Prod.ext ?_ ?_
      · refine (List.map_congr_left ?_).trans (List.map_id _)
        intro w hw
        simp only [if_pos (hfix w hw)]
        rfl
      · simp only
        rw [List.countP_eq_zero]
        intro w hw
        simp [hfix w hw]

/-! ## C6: week generation -/

theorem earliest_last_day_min (kids : List Kid) :
    ∀ (acc : Option Int) (E : Int),
      kids.foldl
        (fun acc kid =>
          match kid.last_day_of_school with
          | some d =>
              match acc with
              | none => some d
              | some a => if d < a then some d else some a
          | none => acc)
        acc = some E →
      (acc = some E ∨ ∃ k ∈ kids, k.last_day_of_school = some E) ∧
      (∀ a, acc = some a → E ≤ a) ∧
      (∀ k ∈ kids, ∀ d, k.last_day_of_school = some d → E ≤ d) := by
  induction kids with
  | nil =>
      intro acc E h
      simp only [List.foldl_nil] at h
      subst h
      refine ⟨Or.inl rfl, fun a ha => ?_, by simp⟩
      have : E = a := Option.some_inj.mp ha
      omega
  | cons k ks ih =>
      intro acc E h
      simp only [List.foldl_cons] at h
      obtain ⟨h1, h2, h3⟩ := ih _ E h
      rcases hk : k.last_day_of_school with _ | d
      all_goals rw [hk] at h1 h2
      · -- kid without a date: accumulator unchanged
        refine ⟨?_, h2, ?_⟩
        · rcases h1 with h1 | ⟨k', hk', he⟩
          · exact Or.inl h1
          · exact Or.inr ⟨k', List.mem_cons_of_mem _ hk', he⟩
        · intro k' hk' d hd
          rcases List.mem_cons.mp hk' with rfl | hk'
          · rw [hk] at hd; cases hd
          · exact h3 k' hk' d hd
      · rcases acc with _ | a
        · -- accumulator empty: becomes the kid's date
          refine ⟨?_, by simp, ?_⟩
          · rcases h1 with h1 | ⟨k', hk', he⟩
            · exact Or.inr ⟨k, List.mem_cons_self _ _, by rw [hk, ← (Option.some_inj.mp h1)]⟩
            · exact Or.inr ⟨k', List.mem_cons_of_mem _ hk', he⟩
          · intro k' hk' d' hd'
            rcases List.mem_cons.mp hk' with rfl | hk'
            · rw [hk] at hd'
              have h4 : d = d' := Option.some_inj.mp hd'
              have := h2 d rfl
              omega
            · exact h3 k' hk' d' hd'
        · by_cases hda : d < a
          all_goals simp only [if_pos, if_neg, hda, ite_true, ite_false] at h1 h2
          · -- kid's date is smaller: becomes the accumulator
            have hEd : E ≤ d := h2 d rfl
            refine ⟨?_, ?_, ?_⟩
            · rcases h1 with h1 | ⟨k', hk', he⟩
              · exact Or.inr ⟨k, List.mem_cons_self _ _, by rw [hk, ← (Option.some_inj.mp h1)]⟩
              · exact Or.inr ⟨k', List.mem_cons_of_mem _ hk', he⟩
            · intro a' ha'
              have : a = a' := Option.some_inj.mp ha'
              omega
            · intro k' hk' d' hd'
              rcases List.mem_cons.mp hk' with rfl | hk'
              · rw [hk] at hd'
                have : d = d' := Option.some_inj.mp hd'
                omega
              · exact h3 k' hk' d' hd'
          · -- accumulator stays
            have hEa : E ≤ a := h2 a rfl
            refine ⟨?_, ?_, ?_⟩
            · rcases h1 with h1 | ⟨k', hk', he⟩
              · exact Or.inl h1
              · exact Or.inr ⟨k', List.mem_cons_of_mem _ hk', he⟩
            · intro a' ha'
              have : a = a' := Option.some_inj.mp ha'
              omega
            · intro k' hk' d' hd'
              rcases List.mem_cons.mp hk' with rfl | hk'
              · rw [hk] at hd'
                have : d = d' := Option.some_inj.mp hd'
                omega
              · exact h3 k' hk' d' hd'

theorem latest_first_day_max (kids : List Kid) :
    ∀ (acc : Option Int) (L : Int),
      kids.foldl
        (fun acc kid =>
          match kid.first_day_of_school with
          | some d =>
              match acc with
              | none => some d
              | some a => if d > a then some d else some a
          | none => acc)
        acc = some L →
      (acc = some L ∨ ∃ k ∈ kids, k.first_day_of_school = some L) ∧
      (∀ a, acc = some a → a ≤ L) ∧
      (∀ k ∈ kids, ∀ d, k.first_day_of_school = some d → d ≤ L) := by
  induction kids with
  | nil =>
      intro acc L h
      simp only [List.foldl_nil] at h
      subst h
      refine ⟨Or.inl rfl, fun a ha => ?_, by simp⟩
      have : L = a := Option.some_inj.mp ha
      omega
  | cons k ks ih =>
      intro acc L h
      simp only [List.foldl_cons] at h
      obtain ⟨h1, h2, h3⟩ := ih _ L h
      rcases hk : k.first_day_of_school with _ | d
      all_goals rw [hk] at h1 h2
      · refine ⟨?_, h2, ?_⟩
        · rcases h1 with h1 | ⟨k', hk', he⟩
          · exact Or.inl h1
          · exact Or.inr ⟨k', List.mem_cons_of_mem _ hk', he⟩
        · intro k' hk' d hd
          rcases List.mem_cons.mp hk' with rfl | hk'
          · rw [hk] at hd; cases hd
          · exact h3 k' hk' d hd
      · rcases acc with _ | a
        · refine ⟨?_, by simp, ?_⟩
          · rcases h1 with h1 | ⟨k', hk', he⟩
            · exact Or.inr ⟨k, List.mem_cons_self _ _, by rw [hk, ← (Option.some_inj.mp h1)]⟩
            · exact Or.inr ⟨k', List.mem_cons_of_mem _ hk', he⟩
          · intro k' hk' d' hd'
            rcases List.mem_cons.mp hk' with rfl | hk'
            · rw [hk] at hd'
              have h4 : d = d' := Option.some_inj.mp hd'
              have := h2 d rfl
              omega
            · exact h3 k' hk' d' hd'
        · by_cases hda : d > a
          all_goals simp only [if_pos, if_neg, hda, ite_true, ite_false] at h1 h2
          · have hdL : d ≤ L := h2 d rfl
            refine ⟨?_, ?_, ?_⟩
            · rcases h1 with h1 | ⟨k', hk', he⟩
              · exact Or.inr ⟨k, List.mem_cons_self _ _, by rw [hk, ← (Option.some_inj.mp h1)]⟩
              · exact Or.inr ⟨k', List.mem_cons_of_mem _ hk', he⟩
            · intro a' ha'
              have : a = a' := Option.some_inj.mp ha'
              omega
            · intro k' hk' d' hd'
              rcases List.mem_cons.mp hk' with rfl | hk'
              · rw [hk] at hd'
                have : d = d' := Option.some_inj.mp hd'
                omega
              · exact h3 k' hk' d' hd'
          · have haL : a ≤ L := h2 a rfl
            refine ⟨?_, ?_, ?_⟩
            · rcases h1 with h1 | ⟨k', hk', he⟩
              · exact Or.inl h1
              · exact Or.inr ⟨k', List.mem_cons_of_mem _ hk', he⟩
            · intro a' ha'
              have : a = a' := Option.some_inj.mp ha'
              omega
            · intro k' hk' d' hd'
              rcases List.mem_cons.mp hk' with rfl | hk'
              · rw [hk] at hd'
                have : d = d' := Option.some_inj.mp hd'
                omega
              · exact h3 k' hk' d' hd'

theorem generate_weeks_getElem (latest : Int) :
    ∀ (i : Nat) (current : Int) (n : Nat),
      (generate_weeks latest current n)[i]?
        = if current + 7 * i + 4 < latest then
            some { id := toString (n + i), week_number := n + i,
                   start_date := current + 7 * i, end_date := current + 7 * i + 4,
                   is_blocked := false }
          else none := by
  intro i
  induction i with
  | zero =>
      intro current n
      rw [generate_weeks.eq_def]
      by_cases hc : current + 4 < latest
      · rw [dif_pos hc, if_pos (by push_cast; omega)]
        simp
      · rw [dif_neg hc, if_neg (by push_cast; omega)]
        simp
  | succ i ih =>
      intro current n
      rw [generate_weeks.eq_def]
      by_cases hc : current + 4 < latest
      · rw [dif_pos hc]
        rw [List.getElem?_cons_succ, ih (current + 7) (n + 1)]
        by_cases hcc : current + 7 + 7 * i + 4 < latest
        · rw [if_pos hcc, if_pos (by push_cast at hcc ⊢; omega)]
          rw [Option.some_inj]
          simp only [Week.mk.injEq]
          exact ⟨congrArg toString (by omega), by omega, by push_cast; ring,
            by push_cast; ring, trivial⟩
        · rw [if_neg hcc, if_neg (by push_cast at hcc ⊢; omega)]
      · rw [dif_neg hc, if_neg (by push_cast; omega)]
        simp

/-- C6.  Full recalculation: `E`/`L` really are the extremal school dates
over the kids; the first Monday is the Monday strictly after `E` (a full 7
days later when `E` is itself a Monday); and every generated week `i`
(0-based) starts at `first_monday E + 7 * i`, ends 4 days later strictly
before `L`, and carries `week_number = 1 + i`.  In particular consecutive
starts are 7 days apart and no emitted week has `end_date >= L`. -/
theorem week_generation_spec :
    ∀ (kids : List Kid) (trips : List Trip) (E L : Int),
      earliest_last_day kids = some E →
      latest_first_day kids = some L →
      ((∃ k ∈ kids, k.last_day_of_school = some E) ∧
       (∀ k ∈ kids, ∀ d, k.last_day_of_school = some d → E ≤ d) ∧
       (∃ k ∈ kids, k.first_day_of_school = some L) ∧
       (∀ k ∈ kids, ∀ d, k.first_day_of_school = some d → d ≤ L)) ∧
      (first_monday E % 7 = 0 ∧ E < first_monday E ∧ first_monday E ≤ E + 7 ∧
        (E % 7 = 0 → first_monday E = E + 7)) ∧
      (∀ (i : Nat) (w : Week),
        (calculate_weeks_for_user kids trips)[i]? = some w →
          w.start_date = first_monday E + 7 * i ∧
          w.end_date = w.start_date + 4 ∧
          w.end_date < L ∧
          w.week_number = 1 + i) := by
  intro kids trips E L hE hL
  refine ⟨?_, ?_, ?_⟩
  · obtain ⟨hE1, _, hE3⟩ := earliest_last_day_min kids none E hE
    obtain ⟨hL1, _, hL3⟩ := latest_first_day_max kids none L hL
    rcases hE1 with hE1 | hE1
    · cases hE1
    rcases hL1 with hL1 | hL1
    · cases hL1
    exact ⟨hE1, hE3, hL1, hL3⟩
  · simp only [first_monday]
    split_ifs <;> omega
  · intro i w h
    unfold calculate_weeks_for_user at h
    by_cases hk : kids.isEmpty
    · rw [if_pos hk] at h
      simp at h
    · rw [if_neg hk, hE, hL] at h
      rw [List.getElem?_map, generate_weeks_getElem] at h
      by_cases hc : first_monday E + 7 * i + 4 < L
      · rw [if_pos hc] at h
        simp only [Option.map_some', Option.some_inj] at h
        subst h
        refine ⟨rfl, rfl, by simpa using hc, rfl⟩
      · rw [if_neg hc] at h
        simp at h

/-! ## C9: the legacy repair pass -/

theorem cleanup_booking_gid (b : Booking) (hid : b.id ≠ "") :
    ∃ g, (cleanup_booking b).1.booking_group_id = some g ∧ g ≠ "" := by
  unfold cleanup_booking
  rcases hb : b.booking_group_id with _ | g
  · exact ⟨b.id, by simp [hb], hid⟩
  · by_cases hg : g = ""
    · exact ⟨b.id, by simp [hb, hg], hid⟩
    · exact ⟨g, by simp [hb, hg], hg⟩

theorem cleanup_booking_wos (b : Booking) :
    ∃ n, (cleanup_booking b).1.week_of_session = some n := by
  unfold cleanup_booking
  rcases hb : b.week_of_session with _ | n
  · exact ⟨1, by simp [hb]⟩
  · exact ⟨n, by simp [hb]⟩

theorem cleanup_booking_tw (b : Booking) :
    ∃ m, (cleanup_booking b).1.total_weeks = some m ∧ m ≠ 0 := by
  unfold cleanup_booking
  rcases hb : b.total_weeks with _ | m
  · exact ⟨1, by simp [hb], one_ne_zero⟩
  · by_cases hm : m = 0
    · exact ⟨1, by simp [hb, hm], one_ne_zero⟩
    · exact ⟨m, by simp [hb, hm], hm⟩

theorem cleanup_booking_fixpoint (b : Booking) (hid : b.id ≠ "") :
    cleanup_booking (cleanup_booking b).1 = ((cleanup_booking b).1, false) := by
  obtain ⟨g, hg, hgne⟩ := cleanup_booking_gid b hid
  obtain ⟨n, hn⟩ := cleanup_booking_wos b
  obtain ⟨m, hm, hmne⟩ := cleanup_booking_tw b
  generalize hgen : (cleanup_booking b).1 = c at hg hn hm ⊢
  rcases c with ⟨cid, ck, cs, cw, cst, cg, cn, cm⟩
  simp only at hg hn hm
  subst hg
  subst hn
  subst hm
  unfold cleanup_booking
  simp [hgne, hmne]

/-- C9.  The repair pass touches only the three group fields: the key,
kid, session, week and state are untouched; populated values are preserved
(a truthy group id, any present `week_of_session`, a nonzero present
`total_weeks`), a fully populated row is returned unchanged with no update
issued, and missing fields get their defaults (the row's own key, 1 and 1).
The pass is the per-row repair mapped over the store, and — under unique
nonempty datastore keys — a second run returns exactly the first run's rows
and issues zero updates. -/
theorem cleanup_spec :
    (∀ b : Booking,
        ((cleanup_booking b).1.id = b.id ∧
         (cleanup_booking b).1.kid_id = b.kid_id ∧
         (cleanup_booking b).1.session_id = b.session_id ∧
         (cleanup_booking b).1.week_id = b.week_id ∧
         (cleanup_booking b).1.state = b.state) ∧
        (∀ g, g ≠ "" → b.booking_group_id = some g →
            (cleanup_booking b).1.booking_group_id = some g) ∧
        (∀ n, b.week_of_session = some n →
            (cleanup_booking b).1.week_of_session = some n) ∧
        (∀ n, n ≠ 0 → b.total_weeks = some n →
            (cleanup_booking b).1.total_weeks = some n) ∧
        (b.booking_group_id = none →
            (cleanup_booking b).1.booking_group_id = some b.id) ∧
        (b.week_of_session = none → (cleanup_booking b).1.week_of_session = some 1) ∧
        (b.total_weeks = none → (cleanup_booking b).1.total_weeks = some 1) ∧
        (∀ g n m, g ≠ "" → m ≠ 0 →
          b.booking_group_id = some g → b.week_of_session = some n →
          b.total_weeks = some m → cleanup_booking b = (b, false))) ∧
    (∀ bookings : List Booking,
        (bookings_cleanup bookings).1
          = bookings.map (fun b => (cleanup_booking b).1) ∧
        ((∀ b ∈ bookings, b.id ≠ "") →
          bookings_cleanup (bookings_cleanup bookings).1
            = ((bookings_cleanup bookings).1, 0))) := by
  constructor
  · intro b
    refine ⟨⟨rfl, rfl, rfl, rfl, rfl⟩, ?_, ?_, ?_, ?_, ?_, ?_, ?_⟩
    · intro g hgne hg
      unfold cleanup_booking
      simp [hg, hgne]
    · intro n hn
      unfold cleanup_booking
      simp [hn]
    · intro n hnne hn
      unfold cleanup_booking
      simp [hn, hnne]
    · intro hg
      unfold cleanup_booking
      simp [hg]
    · intro hn
      unfold cleanup_booking
      simp [hn]
    · intro hn
      unfold cleanup_booking
      simp [hn]
    · intro g n m hgne hmne hg hn hm
      rcases b with ⟨bid, bk, bs, bw, bst, bg, bn, bm⟩
      simp only at hg hn hm
      subst hg
      subst hn
      subst hm
      unfold cleanup_booking
      simp [hgne, hmne]
  · intro bookings
    refine ⟨rfl, ?_⟩
    intro hids
    have hfix : ∀ b ∈ (bookings_cleanup bookings).1, cleanup_booking b = (b, false) := by
      intro b hb
      rcases List.mem_map.mp hb with ⟨b0, hb0, rfl⟩
      exact cleanup_booking_fixpoint b0 (hids b0 hb0)
    unfold bookings_cleanup
    refine Prod.ext ?_ ?_
    · simp only
      refine (List.map_congr_left ?_).trans (List.map_id _)
      intro b hb
      rw [hfix b hb]
      rfl
    · simp only
      rw [List.countP_eq_zero]
      intro b hb
      rw [hfix b hb]
      simp

/-! ## Helper lemmas for the booking operations -/

theorem make_group_bookings_length (kid sid st gid : String) (total : Nat) :
    ∀ (k : Nat) (ws : List Week),
      (make_group_bookings kid sid st gid total k ws).length = ws.length := by
  intro k ws
  induction ws generalizing k with
  | nil => rfl
  | cons w ws ih => simp [make_group_bookings, ih]

theorem make_group_bookings_getElem (kid sid st gid : String) (total : Nat) :
    ∀ (ws : List Week) (k i : Nat),
      (make_group_bookings kid sid st gid total k ws)[i]?
        = (ws[i]?).map (fun w =>
            { id := gid ++ "." ++ toString (k + i), kid_id := kid, session_id := sid,
              week_id := w.id, state := st, booking_group_id := some gid,
              week_of_session := some (k + i), total_weeks := some total }) := by
  intro ws
  induction ws with
  | nil => intro k i; simp [make_group_bookings]
  | cons w ws ih =>
      intro k i
      cases i with
      | zero => simp [make_group_bookings]
      | succ i =>
          simp only [make_group_bookings, List.getElem?_cons_succ]
          rw [ih (k + 1)]
          cases hwi : ws[i]? with
          | none => rfl
          | some w' =>
              simp only [hwi, Option.map_some']
              have hk : k + 1 + i = k + (i + 1) := by omega
              rw [hk]

theorem make_group_bookings_mem (kid sid st gid : String) (total : Nat) :
    ∀ (k : Nat) (ws : List Week) (c : Booking),
      c ∈ make_group_bookings kid sid st gid total k ws →
        c.kid_id = kid ∧ c.session_id = sid ∧ c.state = st ∧
        c.booking_group_id = some gid ∧ c.total_weeks = some total ∧
        ∃ w ∈ ws, c.week_id = w.id := by
  intro k ws
  induction ws generalizing k with
  | nil => intro c hc; simp [make_group_bookings] at hc
  | cons w ws ih =>
      intro c hc
      simp only [make_group_bookings] at hc
      rcases List.mem_cons.mp hc with rfl | hc
      · exact ⟨rfl, rfl, rfl, rfl, rfl, w, List.mem_cons_self _ _, rfl⟩
      · obtain ⟨h1, h2, h3, h4, h5, w', hw', h6⟩ := ih (k + 1) c hc
        exact ⟨h1, h2, h3, h4, h5, w', List.mem_cons_of_mem _ hw', h6⟩

theorem make_group_bookings_week_ids (kid sid st gid : String) (total : Nat) :
    ∀ (k : Nat) (ws : List Week),
      (make_group_bookings kid sid st gid total k ws).map Booking.week_id
        = ws.map Week.id := by
  intro k ws
  induction ws generalizing k with
  | nil => rfl
  | cons w ws ih => simp [make_group_bookings, ih]

theorem collisions_for_mem (bookings : List Booking) (kid : String) (ws : List Week)
    (c : Collision) :
    c ∈ collisions_for bookings kid ws ↔
      ∃ w ∈ ws, ∃ b ∈ bookings, b.kid_id = kid ∧ b.week_id = w.id ∧
        c = { week_id := w.id, week_number := w.week_number, existing_state := b.state } := by
  simp only [collisions_for, List.mem_flatMap, List.mem_map, List.mem_filter,
    Bool.and_eq_true, beq_iff_eq]
  constructor
  · rintro ⟨w, hw, b, ⟨hb, hbk, hbw⟩, rfl⟩
    exact ⟨w, hw, b, hb, hbk, hbw, rfl⟩
  · rintro ⟨w, hw, b, hb, hbk, hbw, rfl⟩
    exact ⟨w, hw, b, ⟨hb, hbk, hbw⟩, rfl⟩

theorem collisions_for_eq_nil (bookings : List Booking) (kid : String) (ws : List Week) :
    collisions_for bookings kid ws = [] ↔
      ∀ w ∈ ws, ∀ b ∈ bookings, ¬ (b.kid_id = kid ∧ b.week_id = w.id) := by
  rw [List.eq_nil_iff_forall_not_mem]
  constructor
  · intro h w hw b hb hc
    exact h _ ((collisions_for_mem bookings kid ws _).mpr
      ⟨w, hw, b, hb, hc.1, hc.2, rfl⟩)
  · intro h c hc
    obtain ⟨w, hw, b, hb, hbk, hbw, rfl⟩ := (collisions_for_mem bookings kid ws c).mp hc
    exact h w hw b hb ⟨hbk, hbw⟩

theorem collisions_for_any_booked (bookings : List Booking) (kid : String) (ws : List Week) :
    (collisions_for bookings kid ws).any (fun c => c.existing_state == "booked") = true ↔
      ∃ w ∈ ws, ∃ b ∈ bookings,
        b.kid_id = kid ∧ b.week_id = w.id ∧ b.state = "booked" := by
  simp only [List.any_eq_true, beq_iff_eq]
  constructor
  · rintro ⟨c, hc, hst⟩
    obtain ⟨w, hw, b, hb, hbk, hbw, rfl⟩ := (collisions_for_mem bookings kid ws c).mp hc
    exact ⟨w, hw, b, hb, hbk, hbw, hst⟩
  · rintro ⟨w, hw, b, hb, hbk, hbw, hst⟩
    exact ⟨_, (collisions_for_mem bookings kid ws _).mpr ⟨w, hw, b, hb, hbk, hbw, rfl⟩, hst⟩

theorem booking_new_ok_inv (bookings : List Booking) (wl : List Week) (sess : Session)
    (kid sid wid st gid : String) (created : List Booking)
    (h : booking_new bookings wl sess kid sid wid st gid = .ok created) :
    ∃ i, wl.findIdx? (fun w => w.id == wid) = some i ∧
      i + sess.duration_weeks.getD 1 ≤ wl.length ∧
      (∀ w ∈ (wl.drop i).take (sess.duration_weeks.getD 1), w.is_blocked = false) ∧
      (st = "booked" →
        collisions_for bookings kid ((wl.drop i).take (sess.duration_weeks.getD 1)) = []) ∧
      ((collisions_for bookings kid ((wl.drop i).take (sess.duration_weeks.getD 1))).any
          (fun c => c.existing_state == "booked") = false) ∧
      created = make_group_bookings kid sid st gid (sess.duration_weeks.getD 1) 1
        ((wl.drop i).take (sess.duration_weeks.getD 1)) := by
  unfold booking_new at h
  simp only [] at h
  split at h
  · simp at h
  · rename_i i hidx
    split at h
    · simp at h
    · rename_i hcap
      split at h
      · simp at h
      · rename_i hrange
        split at h
        · simp at h
        · rename_i hblocked
          split at h
          · simp at h
          · rename_i hcw
            split at h
            · simp at h
            · rename_i hbooked
              refine ⟨i, hidx, by omega, ?_, ?_, ?_, by simpa using h.symm⟩
              · intro w hw
                have := List.find?_eq_none.mp hblocked w hw
                simpa using this
              · intro hst
                subst hst
                rcases Bool.eq_false_or_eq_true
                    ((collisions_for bookings kid
                      ((wl.drop i).take (sess.duration_weeks.getD 1))).isEmpty) with
                  hie | hie
                · exact List.isEmpty_iff.mp hie
                · exact absurd (by simp [hie]) hcw
              · simpa using hbooked

theorem api_quick_booking_ok_inv (bookings : List Booking) (wl : List Week) (sess : Session)
    (kid sid wid gid : String) (created : List Booking)
    (h : api_quick_booking bookings wl sess kid sid wid gid = .ok created) :
    ∃ i, wl.findIdx? (fun w => w.id == wid) = some i ∧
      i + sess.duration_weeks.getD 1 ≤ wl.length ∧
      (∀ w ∈ (wl.drop i).take (sess.duration_weeks.getD 1), w.is_blocked = false) ∧
      (∀ w ∈ (wl.drop i).take (sess.duration_weeks.getD 1), ∀ b ∈ bookings,
        ¬ (b.kid_id = kid ∧ b.week_id = w.id ∧ b.state = "booked")) ∧
      created = make_group_bookings kid sid "idea" gid (sess.duration_weeks.getD 1) 1
        ((wl.drop i).take (sess.duration_weeks.getD 1)) := by
  unfold api_quick_booking at h
  simp only [] at h
  split at h
  · simp at h
  · rename_i i hidx
    split at h
    · simp at h
    · rename_i hcap
      split at h
      · simp at h
      · rename_i hblocked
        split at h
        · simp at h
        · rename_i hfree
          refine ⟨i, hidx, by omega, ?_, ?_, by simpa using h.symm⟩
          · intro w hw
            have := List.find?_eq_none.mp hblocked w hw
            simpa using this
          · intro w hw b hb hc
            have := List.find?_eq_none.mp hfree w hw
            simp only [List.any_eq_true, Bool.and_eq_true, beq_iff_eq, not_exists,
              not_and] at this
            exact absurd hc.2.2 (this b hb ⟨hc.1, hc.2.1⟩)

theorem booking_change_state_ok_inv (bookings : List Booking) (id ns : String)
    (bs : List Booking)
    (h : booking_change_state bookings id ns = .ok bs) :
    ∃ booking, bookings.find? (fun b => b.id == id) = some booking ∧
      (ns = "booked" → state_conflicts bookings booking = []) ∧
      bs = bookings.map (apply_state_change booking ns) := by
  unfold booking_change_state at h
  simp only [] at h
  split at h
  · simp at h
  · rename_i booking hfind
    split at h
    · simp at h
    · rename_i hvalid
      split at h
      · rename_i hns
        split at h
        · simp at h
        · rename_i hcon
          refine ⟨booking, hfind, ?_, by simpa using h.symm⟩
          intro _
          exact List.isEmpty_iff.mp (not_not.mp hcon)
      · rename_i hns
        split at h
        · rename_i hcon
          exact absurd rfl hcon
        · refine ⟨booking, hfind, ?_, by simpa using h.symm⟩
          intro hns'
          subst hns'
          simp at hns

theorem take_drop_getElem (wl : List Week) (i k N : Nat) (hk : k < N) :
    ((wl.drop i).take N)[k]? = wl[i + k]? := by
  rw [List.getElem?_take, if_pos hk, List.getElem?_drop]

/-! ## C4: shape of a successful creation -/

/-- C4.  A successful creation through either path makes exactly
`N = duration_weeks` Booking rows, one per week of the contiguous slice
`wl[i .. i+N-1]` of the ordered week list, all with the same kid and
session, sharing the one fresh group id (held by no pre-existing row), with
`week_of_session` running 1..N in week order and `total_weeks = N`
throughout; the quick path creates them in state `idea`. -/
theorem booking_creation_shape :
    (∀ (bookings : List Booking) (wl : List Week) (sess : Session)
        (kid sid wid st gid : String) (created : List Booking) (i : Nat),
      booking_new bookings wl sess kid sid wid st gid = .ok created →
      wl.findIdx? (fun w => w.id == wid) = some i →
      (∀ b ∈ bookings, b.booking_group_id ≠ some gid) →
      created.length = sess.duration_weeks.getD 1 ∧
      (∀ k, k < sess.duration_weeks.getD 1 → ∃ w,
        wl[i + k]? = some w ∧
        created[k]? = some
          { id := gid ++ "." ++ toString (1 + k), kid_id := kid,
            session_id := sid, week_id := w.id, state := st,
            booking_group_id := some gid, week_of_session := some (1 + k),
            total_weeks := some (sess.duration_weeks.getD 1) }) ∧
      (∀ b ∈ bookings, b.booking_group_id ≠ some gid)) ∧
    (∀ (bookings : List Booking) (wl : List Week) (sess : Session)
        (kid sid wid gid : String) (created : List Booking) (i : Nat),
      api_quick_booking bookings wl sess kid sid wid gid = .ok created →
      wl.findIdx? (fun w => w.id == wid) = some i →
      (∀ b ∈ bookings, b.booking_group_id ≠ some gid) →
      created.length = sess.duration_weeks.getD 1 ∧
      (∀ k, k < sess.duration_weeks.getD 1 → ∃ w,
        wl[i + k]? = some w ∧
        created[k]? = some
          { id := gid ++ "." ++ toString (1 + k), kid_id := kid,
            session_id := sid, week_id := w.id, state := "idea",
            booking_group_id := some gid, week_of_session := some (1 + k),
            total_weeks := some (sess.duration_weeks.getD 1) }) ∧
      (∀ b ∈ bookings, b.booking_group_id ≠ some gid)) := by
  constructor
  · intro bookings wl sess kid sid wid st gid created i h hidx hfresh
    obtain ⟨i', hidx', hcap, _, _, _, hcreated⟩ :=
      booking_new_ok_inv bookings wl sess kid sid wid st gid created h
    rw [hidx] at hidx'
    have hii : i = i' := by simpa using hidx'
    subst hii
    subst hcreated
    have hlen : ((wl.drop i).take (sess.duration_weeks.getD 1)).length
        = sess.duration_weeks.getD 1 := by
      rw [List.length_take, List.length_drop]
      omega
    refine ⟨by rw [make_group_bookings_length, hlen], ?_, hfresh⟩
    intro k hk
    have hik : i + k < wl.length := by omega
    refine ⟨wl[i + k], List.getElem?_eq_getElem hik, ?_⟩
    rw [make_group_bookings_getElem, take_drop_getElem wl i k _ hk,
      List.getElem?_eq_getElem hik]
    rfl
  · intro bookings wl sess kid sid wid gid created i h hidx hfresh
    obtain ⟨i', hidx', hcap, _, _, hcreated⟩ :=
      api_quick_booking_ok_inv bookings wl sess kid sid wid gid created h
    rw [hidx] at hidx'
    have hii : i = i' := by simpa using hidx'
    subst hii
    subst hcreated
    have hlen : ((wl.drop i).take (sess.duration_weeks.getD 1)).length
        = sess.duration_weeks.getD 1 := by
      rw [List.length_take, List.length_drop]
      omega
    refine ⟨by rw [make_group_bookings_length, hlen], ?_, hfresh⟩
    intro k hk
    have hik : i + k < wl.length := by omega
    refine ⟨wl[i + k], List.getElem?_eq_getElem hik, ?_⟩
    rw [make_group_bookings_getElem, take_drop_getElem wl i k _ hk,
      List.getElem?_eq_getElem hik]
    rfl

/-! ## C3: creation is all-or-nothing -/

/-- C3.  On either creation path, if the chosen week is missing from the
ordered list, or `start_index + duration` exceeds its length, or an
occupied week is blocked, or an occupied (kid, week) slot already holds a
`booked` row, the operation returns an error and writes nothing — the
store after `booking_new_db`/`api_quick_booking_db` is exactly the old
store, so no partial group is ever persisted.  The later conjuncts pin the
specific error to the first failing check in source order (on the form
path, the session-date window check sits between capacity and blocking, so
those conjuncts assume it passes). -/
theorem booking_creation_all_or_nothing :
    ∀ (bookings : List Booking) (wl : List Week) (sess : Session)
      (kid sid wid st gid : String),
      ((wl.findIdx? (fun w => w.id == wid) = none ∨
        (∃ i, wl.findIdx? (fun w => w.id == wid) = some i ∧
          wl.length < i + sess.duration_weeks.getD 1) ∨
        (∃ i, wl.findIdx? (fun w => w.id == wid) = some i ∧
          ∃ w ∈ (wl.drop i).take (sess.duration_weeks.getD 1), w.is_blocked = true) ∨
        (∃ i, wl.findIdx? (fun w => w.id == wid) = some i ∧
          ∃ w ∈ (wl.drop i).take (sess.duration_weeks.getD 1), ∃ b ∈ bookings,
            b.kid_id = kid ∧ b.week_id = w.id ∧ b.state = "booked")) →
        (∃ e, booking_new_db bookings wl sess kid sid wid st gid = (bookings, some e)) ∧
        (∃ e, api_quick_booking_db bookings wl sess kid sid wid gid = (bookings, some e))) ∧
      (wl.findIdx? (fun w => w.id == wid) = none →
        booking_new_db bookings wl sess kid sid wid st gid
          = (bookings, some .weekNotFound) ∧
        api_quick_booking_db bookings wl sess kid sid wid gid
          = (bookings, some .weekNotFound)) ∧
      (∀ i, wl.findIdx? (fun w => w.id == wid) = some i →
        wl.length < i + sess.duration_weeks.getD 1 →
        booking_new_db bookings wl sess kid sid wid st gid
          = (bookings, some (.notEnoughWeeks (sess.duration_weeks.getD 1))) ∧
        api_quick_booking_db bookings wl sess kid sid wid gid
          = (bookings, some (.notEnoughWeeks (sess.duration_weeks.getD 1)))) ∧
      (∀ i, wl.findIdx? (fun w => w.id == wid) = some i →
        ¬ wl.length < i + sess.duration_weeks.getD 1 →
        (∃ w ∈ (wl.drop i).take (sess.duration_weeks.getD 1), w.is_blocked = true) →
        (session_range_violation sess ((wl.drop i).take (sess.duration_weeks.getD 1))
            = none →
          ∃ wid', booking_new_db bookings wl sess kid sid wid st gid
            = (bookings, some (.blockedWeek wid'))) ∧
        (∃ wid', api_quick_booking_db bookings wl sess kid sid wid gid
          = (bookings, some (.blockedWeek wid')))) ∧
      (∀ i, wl.findIdx? (fun w => w.id == wid) = some i →
        ¬ wl.length < i + sess.duration_weeks.getD 1 →
        (∀ w ∈ (wl.drop i).take (sess.duration_weeks.getD 1), w.is_blocked = false) →
        (∃ w ∈ (wl.drop i).take (sess.duration_weeks.getD 1), ∃ b ∈ bookings,
          b.kid_id = kid ∧ b.week_id = w.id ∧ b.state = "booked") →
        (session_range_violation sess ((wl.drop i).take (sess.duration_weeks.getD 1))
            = none →
          ∃ ws, booking_new_db bookings wl sess kid sid wid st gid
              = (bookings, some (.bookedWithConflicts ws)) ∨
            booking_new_db bookings wl sess kid sid wid st gid
              = (bookings, some (.existingBookedConflict ws))) ∧
        (∃ wid', api_quick_booking_db bookings wl sess kid sid wid gid
          = (bookings, some (.alreadyBooked wid')))) := by
  intro bookings wl sess kid sid wid st gid
  refine ⟨?_, ?_, ?_, ?_, ?_⟩
  · -- any of the four conditions forces a failure with an unchanged store
    intro hcond
    constructor
    · cases hres : booking_new bookings wl sess kid sid wid st gid with
      | ok created =>
          exfalso
          obtain ⟨i', hidx', hcap', hblocked', hcw', hbooked', _⟩ :=
            booking_new_ok_inv bookings wl sess kid sid wid st gid created hres
          rcases hcond with h1 | ⟨i, h2, hcap⟩ | ⟨i, h2, w, hw, hbl⟩ | ⟨i, h2, w, hw, b, hb, hc⟩
          · rw [h1] at hidx'
            cases hidx'
          · rw [h2] at hidx'
            have : i = i' := by simpa using hidx'
            omega
          · rw [h2] at hidx'
            have : i = i' := by simpa using hidx'
            subst this
            exact absurd (hblocked' w hw) (by simp [hbl])
          · rw [h2] at hidx'
            have : i = i' := by simpa using hidx'
            subst this
            have := (collisions_for_any_booked bookings kid _).mpr
              ⟨w, hw, b, hb, hc.1, hc.2.1, hc.2.2⟩
            rw [hbooked'] at this
            cases this
      | error e =>
          refine ⟨e, ?_⟩
          unfold booking_new_db
          rw [hres]
    · cases hres : api_quick_booking bookings wl sess kid sid wid gid with
      | ok created =>
          exfalso
          obtain ⟨i', hidx', hcap', hblocked', hfree', _⟩ :=
            api_quick_booking_ok_inv bookings wl sess kid sid wid gid created hres
          rcases hcond with h1 | ⟨i, h2, hcap⟩ | ⟨i, h2, w, hw, hbl⟩ | ⟨i, h2, w, hw, b, hb, hc⟩
          · rw [h1] at hidx'
            cases hidx'
          · rw [h2] at hidx'
            have : i = i' := by simpa using hidx'
            omega
          · rw [h2] at hidx'
            have : i = i' := by simpa using hidx'
            subst this
            exact absurd (hblocked' w hw) (by simp [hbl])
          · rw [h2] at hidx'
            have : i = i' := by simpa using hidx'
            subst this
            exact hfree' w hw b hb hc
      | error e =>
          refine ⟨e, ?_⟩
          unfold api_quick_booking_db
          rw [hres]
  · -- missing starting week
    intro hidx
    constructor
    · unfold booking_new_db booking_new
      simp [hidx]
    · unfold api_quick_booking_db api_quick_booking
      simp [hidx]
  · -- not enough weeks
    intro i hidx hcap
    constructor
    · unfold booking_new_db booking_new
      simp [hidx, hcap]
    · unfold api_quick_booking_db api_quick_booking
      simp [hidx, hcap]
  · -- a blocked occupied week
    intro i hidx hcap hbl
    have hfind : ∃ w', ((wl.drop i).take (sess.duration_weeks.getD 1)).find?
        (fun w => w.is_blocked) = some w' := by
      rcases hf : ((wl.drop i).take (sess.duration_weeks.getD 1)).find?
          (fun w => w.is_blocked) with _ | w'
      · obtain ⟨w, hw, hbw⟩ := hbl
        exact absurd hbw (by simpa using List.find?_eq_none.mp hf w hw)
      · exact ⟨w', hf⟩
    obtain ⟨w', hw'⟩ := hfind
    constructor
    · intro hrange
      refine ⟨w'.id, ?_⟩
      unfold booking_new_db booking_new
      simp [hidx, hcap, hrange, hw']
    · refine ⟨w'.id, ?_⟩
      unfold api_quick_booking_db api_quick_booking
      simp [hidx, hcap, hw']
  · -- an occupied slot already booked
    intro i hidx hcap hunbl hbk
    constructor
    · intro hrange
      have hany : (collisions_for bookings kid
          ((wl.drop i).take (sess.duration_weeks.getD 1))).any
            (fun c => c.existing_state == "booked") = true := by
        obtain ⟨w, hw, b, hb, hc⟩ := hbk
        exact (collisions_for_any_booked bookings kid _).mpr
          ⟨w, hw, b, hb, hc.1, hc.2.1, hc.2.2⟩
      have hne : collisions_for bookings kid
          ((wl.drop i).take (sess.duration_weeks.getD 1)) ≠ [] := by
        intro hnil
        rw [hnil] at hany
        cases hany
      have hblfind : ((wl.drop i).take (sess.duration_weeks.getD 1)).find?
          (fun w => w.is_blocked) = none :=
        List.find?_eq_none.mpr (fun w hw => by simp [hunbl w hw])
      refine ⟨collisions_for bookings kid
        ((wl.drop i).take (sess.duration_weeks.getD 1)), ?_⟩
      by_cases hst : st = "booked"
      · left
        unfold booking_new_db booking_new
        simp [hidx, hcap, hrange, hblfind, hst, hany, List.isEmpty_iff, hne]
      · right
        unfold booking_new_db booking_new
        simp [hidx, hcap, hrange, hblfind, hany, List.isEmpty_iff, hne,
          beq_eq_false_iff_ne.mpr hst]
    · have hblfind : ((wl.drop i).take (sess.duration_weeks.getD 1)).find?
          (fun w => w.is_blocked) = none :=
        List.find?_eq_none.mpr (fun w hw => by simp [hunbl w hw])
      have hfind : ∃ w', ((wl.drop i).take (sess.duration_weeks.getD 1)).find?
          (fun w => bookings.any (fun b =>
            b.kid_id == kid && b.week_id == w.id && b.state == "booked")) = some w' := by
        rcases hf : ((wl.drop i).take (sess.duration_weeks.getD 1)).find?
            (fun w => bookings.any (fun b =>
              b.kid_id == kid && b.week_id == w.id && b.state == "booked")) with _ | w'
        · obtain ⟨w, hw, b, hb, hc⟩ := hbk
          have := List.find?_eq_none.mp hf w hw
          simp only [List.any_eq_true, Bool.and_eq_true, beq_iff_eq, not_exists,
            not_and] at this
          exact absurd hc.2.2 (this b hb ⟨hc.1, hc.2.1⟩)
        · exact ⟨w', hf⟩
      obtain ⟨w', hw'⟩ := hfind
      refine ⟨w'.id, ?_⟩
      unfold api_quick_booking_db api_quick_booking
      simp [hidx, hcap, hblfind, hw']

/-! ## C10: the form path's session-date window -/

/-- C10.  When both session dates are present, the booking form rejects the
creation with a date-range error — before anything is written — as soon as
some occupied week satisfies `week_end < session_start - 7` or
`week_start > session_end + 7`.  The window is 7 days wider than the
session on each side: the second conjunct accepts a week with no literal
calendar overlap (week 100–104, session 106–110); the third shows the
quick-booking path applies no window at all (week 100–104, session 120–125
succeeds there), while the fourth shows the form path rejects that same
far-away week. -/
theorem session_window_buffer :
    (∀ (bookings : List Booking) (wl : List Week) (sess : Session)
        (kid sid wid st gid : String) (i : Nat) (ss se : Int),
      sess.session_start_date = some ss → sess.session_end_date = some se →
      wl.findIdx? (fun w => w.id == wid) = some i →
      ¬ wl.length < i + sess.duration_weeks.getD 1 →
      (∃ w ∈ (wl.drop i).take (sess.duration_weeks.getD 1),
        w.end_date < ss - 7 ∨ w.start_date > se + 7) →
      ∃ wid', booking_new_db bookings wl sess kid sid wid st gid
        = (bookings, some (.outsideSessionRange wid'))) ∧
    (booking_new [] [⟨"w1", 1, 100, 104, false⟩] ⟨some 106, some 110, some 1⟩
        "k" "s" "w1" "idea" "g"
      = .ok [⟨"g" ++ "." ++ toString 1, "k", "s", "w1", "idea", some "g",
          some 1, some 1⟩]) ∧
    (api_quick_booking [] [⟨"w1", 1, 100, 104, false⟩] ⟨some 120, some 125, some 1⟩
        "k" "s" "w1" "g"
      = .ok [⟨"g" ++ "." ++ toString 1, "k", "s", "w1", "idea", some "g",
          some 1, some 1⟩]) ∧
    (booking_new [] [⟨"w1", 1, 100, 104, false⟩] ⟨some 120, some 125, some 1⟩
        "k" "s" "w1" "idea" "g" = .error (.outsideSessionRange "w1")) := by
  refine ⟨?_, rfl, rfl, rfl⟩
  intro bookings wl sess kid sid wid st gid i ss se hss hse hidx hcap hout
  have hsrv : ∃ w', session_range_violation sess
      ((wl.drop i).take (sess.duration_weeks.getD 1)) = some w' := by
    unfold session_range_violation
    rw [hss, hse]
    rcases hf : ((wl.drop i).take (sess.duration_weeks.getD 1)).find?
        (fun w => decide (w.end_date < ss - 7) || decide (w.start_date > se + 7)) with
      _ | w'
    · obtain ⟨w, hw, hbad⟩ := hout
      have := List.find?_eq_none.mp hf w hw
      simp only [Bool.or_eq_true, decide_eq_true_iff, not_or] at this
      rcases hbad with hbad | hbad
      · exact absurd hbad this.1
      · exact absurd hbad this.2
    · exact ⟨w', hf⟩
  obtain ⟨w', hw'⟩ := hsrv
  refine ⟨w'.id, ?_⟩
  unfold booking_new_db booking_new
  simp [hidx, hcap, hw']

theorem state_conflicts_mem (bookings : List Booking) (booking : Booking)
    (c : StateConflict) :
    c ∈ state_conflicts bookings booking ↔
      ∃ m ∈ state_group bookings booking, ∃ o ∈ bookings,
        o.kid_id = m.kid_id ∧ o.week_id = m.week_id ∧
        (∀ g, truthy_group_id booking = some g → o.booking_group_id ≠ some g) ∧
        o.id ≠ m.id ∧ c = { week_id := m.week_id, other_state := o.state } := by
  constructor
  · intro hc
    obtain ⟨m, hm, hc2⟩ := List.mem_flatMap.mp hc
    obtain ⟨o, ho2, hco⟩ := List.mem_map.mp hc2
    obtain ⟨ho, hcond⟩ := List.mem_filter.mp ho2
    rcases hg : truthy_group_id booking with _ | g
    all_goals rw [hg] at hcond
    all_goals simp only [Bool.and_eq_true, beq_iff_eq, Bool.not_eq_true',
      beq_eq_false_iff_ne, ne_eq, bne_iff_ne, Bool.not_false, Bool.not_true,
      and_true, true_and] at hcond
    · exact ⟨m, hm, o, ho, hcond.1.1, hcond.1.2, by simp, hcond.2, hco.symm⟩
    · refine ⟨m, hm, o, ho, hcond.1.1.1, hcond.1.1.2, ?_, hcond.2, hco.symm⟩
      intro g' hg'
      have : g = g' := by simpa using hg'
      subst this
      exact hcond.1.2
  · rintro ⟨m, hm, o, ho, hk, hw, hgo, hid, rfl⟩
    refine List.mem_flatMap.mpr ⟨m, hm, List.mem_map.mpr ⟨o, List.mem_filter.mpr ⟨ho, ?_⟩, rfl⟩⟩
    rcases hg : truthy_group_id booking with _ | g
    · simp [hk, hw, hid]
    · simp [hk, hw, hid, hgo g hg]

theorem state_conflicts_ne_nil (bookings : List Booking) (booking : Booking) :
    state_conflicts bookings booking ≠ [] ↔
      ∃ m ∈ state_group bookings booking, ∃ o ∈ bookings,
        o.kid_id = m.kid_id ∧ o.week_id = m.week_id ∧
        (∀ g, truthy_group_id booking = some g → o.booking_group_id ≠ some g) ∧
        o.id ≠ m.id := by
  constructor
  · intro hne
    rcases hc : state_conflicts bookings booking with _ | ⟨c, cs⟩
    · exact absurd hc hne
    · have : c ∈ state_conflicts bookings booking := by rw [hc]; exact List.mem_cons_self _ _
      obtain ⟨m, hm, o, ho, hk, hw, hgo, hid, _⟩ :=
        (state_conflicts_mem bookings booking c).mp this
      exact ⟨m, hm, o, ho, hk, hw, hgo, hid⟩
  · rintro ⟨m, hm, o, ho, hk, hw, hgo, hid⟩
    intro hnil
    have : ({ week_id := m.week_id, other_state := o.state } : StateConflict)
        ∈ state_conflicts bookings booking :=
      (state_conflicts_mem bookings booking _).mpr ⟨m, hm, o, ho, hk, hw, hgo, hid, rfl⟩
    rw [hnil] at this
    cases this

/-! ## C2: the transition-to-booked conflict check -/

/-- C2.  For a transition of a found booking's group to `booked`: the
conflict scan fires exactly when some group member's (kid, week) slot holds
another booking — in any state — outside the member's group (for an
ungrouped target, any other row in its slot); on a conflict the whole
transition is rejected with the conflict list, every conflicted member week
is named in it, and the store is returned unchanged, so no member's state
is written; with no conflict every group member is written to `booked` and
every other row is left untouched. -/
theorem booked_transition_spec :
    ∀ (bookings : List Booking) (id : String) (booking : Booking),
      bookings.find? (fun b => b.id == id) = some booking →
      ((state_conflicts bookings booking ≠ []) ↔
        ∃ m ∈ state_group bookings booking, ∃ o ∈ bookings,
          o.kid_id = m.kid_id ∧ o.week_id = m.week_id ∧
          (∀ g, truthy_group_id booking = some g → o.booking_group_id ≠ some g) ∧
          o.id ≠ m.id) ∧
      (state_conflicts bookings booking ≠ [] →
        booking_change_state_db bookings id "booked"
          = (bookings, some (.conflicts (state_conflicts bookings booking))) ∧
        (∀ m ∈ state_group bookings booking,
          (∃ o ∈ bookings, o.kid_id = m.kid_id ∧ o.week_id = m.week_id ∧
            (∀ g, truthy_group_id booking = some g → o.booking_group_id ≠ some g) ∧
            o.id ≠ m.id) →
          ∃ c ∈ state_conflicts bookings booking, c.week_id = m.week_id)) ∧
      (state_conflicts bookings booking = [] →
        booking_change_state_db bookings id "booked"
          = (bookings.map (apply_state_change booking "booked"), none) ∧
        (∀ b, is_group_member booking b = true →
          apply_state_change booking "booked" b = { b with state := "booked" }) ∧
        (∀ b, is_group_member booking b = false →
          apply_state_change booking "booked" b = b) ∧
        (∀ m ∈ state_group bookings booking, is_group_member booking m = true)) := by
  intro bookings id booking hfind
  refine ⟨state_conflicts_ne_nil bookings booking, ?_, ?_⟩
  · intro hcon
    have hie : (state_conflicts bookings booking).isEmpty = false := by
      rcases hsc : state_conflicts bookings booking with _ | ⟨c, cs⟩
      · exact absurd hsc hcon
      · rfl
    constructor
    · unfold booking_change_state_db booking_change_state
      simp [hfind, hie]
    · intro m hm ⟨o, ho, hk, hw, hgo, hid⟩
      exact ⟨{ week_id := m.week_id, other_state := o.state },
        (state_conflicts_mem bookings booking _).mpr
          ⟨m, hm, o, ho, hk, hw, hgo, hid, rfl⟩, rfl⟩
  · intro hcon
    refine ⟨?_, ?_, ?_, ?_⟩
    · unfold booking_change_state_db booking_change_state
      simp [hfind, hcon]
    · intro b hb
      simp [apply_state_change, hb]
    · intro b hb
      simp [apply_state_change, hb]
    · intro m hm
      unfold state_group at hm
      rcases hg : truthy_group_id booking with _ | g
      all_goals rw [hg] at hm
      · have : m = booking := by simpa using hm
        subst this
        simp [is_group_member, hg]
      · have := (List.mem_filter.mp hm).2
        simp [is_group_member, hg, this]

/-! ## C1: preservation of booked-exclusivity -/

theorem no_double_booked_symm : Symmetric no_double_booked := by
  intro a b h hc
  exact h ⟨hc.2.1, hc.1, hc.2.2.1.symm, hc.2.2.2.symm⟩

theorem pairwise_no_double_of_unbooked (l : List Booking)
    (h : ∀ b ∈ l, b.state ≠ "booked") : l.Pairwise no_double_booked := by
  induction l with
  | nil => exact List.Pairwise.nil
  | cons a l ih =>
      refine List.Pairwise.cons ?_ (ih (fun b hb => h b (List.mem_cons_of_mem _ hb)))
      intro b _ hc
      exact h a (List.mem_cons_self _ _) hc.1

theorem truthy_group_id_some (b : Booking) (g : String)
    (h : truthy_group_id b = some g) :
    b.booking_group_id = some g ∧ g ≠ "" := by
  rcases hb : b.booking_group_id with _ | g'
  · unfold truthy_group_id at h
    rw [hb] at h
    simp at h
  · unfold truthy_group_id at h
    rw [hb] at h
    by_cases hg' : g' = ""
    · simp [hg'] at h
    · simp [hg'] at h
      subst h
      exact ⟨rfl, hg'⟩

theorem apply_state_change_member (booking : Booking) (ns : String) (b : Booking)
    (h : is_group_member booking b = true) :
    apply_state_change booking ns b = { b with state := ns } := by
  simp [apply_state_change, h]

theorem apply_state_change_nonmember (booking : Booking) (ns : String) (b : Booking)
    (h : is_group_member booking b = false) :
    apply_state_change booking ns b = b := by
  simp [apply_state_change, h]

/-- C1.  Each of the three store-mutating booking operations preserves the
booked-exclusivity invariant: starting from a store with at most one
`booked` row per (kid, week) slot — with unique datastore keys and sane
groups, as the system writes them — the store after `booking_new`,
`api_quick_booking` or `booking_change_state` still has at most one
`booked` row per (kid, week) slot, whether the operation succeeded or was
rejected. -/
theorem booked_exclusivity_preserved :
    (∀ (bookings : List Booking) (wl : List Week) (sess : Session)
        (kid sid wid st gid : String),
      booked_unique bookings → week_ids_nodup wl →
      booked_unique (booking_new_db bookings wl sess kid sid wid st gid).1) ∧
    (∀ (bookings : List Booking) (wl : List Week) (sess : Session)
        (kid sid wid gid : String),
      booked_unique bookings →
      booked_unique (api_quick_booking_db bookings wl sess kid sid wid gid).1) ∧
    (∀ (bookings : List Booking) (id ns : String),
      booked_unique bookings → ids_nodup bookings → groups_wf bookings →
      booked_unique (booking_change_state_db bookings id ns).1) := by
  refine ⟨?_, ?_, ?_⟩
  · intro bookings wl sess kid sid wid st gid hBU hWN
    cases hres : booking_new bookings wl sess kid sid wid st gid with
    | error e =>
        unfold booking_new_db
        rw [hres]
        exact hBU
    | ok created =>
        unfold booking_new_db
        rw [hres]
        obtain ⟨i, hidx, hcap, hblocked, hcw, hbooked, hcreated⟩ :=
          booking_new_ok_inv bookings wl sess kid sid wid st gid created hres
        show booked_unique (bookings ++ created)
        rw [booked_unique, List.pairwise_append]
        refine ⟨hBU, ?_, ?_⟩
        · -- the created rows occupy pairwise distinct weeks
          have hsub : ((wl.drop i).take (sess.duration_weeks.getD 1)).Sublist wl :=
            (List.take_sublist _ _).trans (List.drop_sublist _ _)
          have hnodup : (((wl.drop i).take (sess.duration_weeks.getD 1)).map
              Week.id).Nodup :=
            (hsub.map Week.id).nodup hWN
          have hwids : (created.map Booking.week_id).Nodup := by
            rw [hcreated, make_group_bookings_week_ids]
            exact hnodup
          have := List.pairwise_map.mp hwids
          exact this.imp (fun hne hc => hne hc.2.2.2)
        · -- no created row collides with an existing booked row
          intro a ha c hc hcon
          have hcf := make_group_bookings_mem kid sid st gid
            (sess.duration_weeks.getD 1) 1 _ c (hcreated ▸ hc)
          obtain ⟨hckid, _, _, _, _, w, hwmem, hcwid⟩ := hcf
          have : (collisions_for bookings kid
              ((wl.drop i).take (sess.duration_weeks.getD 1))).any
                (fun c => c.existing_state == "booked") = true :=
            (collisions_for_any_booked bookings kid _).mpr
              ⟨w, hwmem, a, ha, hcon.2.2.1.trans hckid,
                hcon.2.2.2.trans hcwid, hcon.1⟩
          rw [hbooked] at this
          cases this
  · intro bookings wl sess kid sid wid gid hBU
    cases hres : api_quick_booking bookings wl sess kid sid wid gid with
    | error e =>
        unfold api_quick_booking_db
        rw [hres]
        exact hBU
    | ok created =>
        unfold api_quick_booking_db
        rw [hres]
        obtain ⟨i, hidx, hcap, hblocked, hfree, hcreated⟩ :=
          api_quick_booking_ok_inv bookings wl sess kid sid wid gid created hres
        have hunbooked : ∀ c ∈ created, c.state ≠ "booked" := by
          intro c hc
          have := (make_group_bookings_mem kid sid "idea" gid
            (sess.duration_weeks.getD 1) 1 _ c (hcreated ▸ hc)).2.2.1
          rw [this]
          decide
        show booked_unique (bookings ++ created)
        rw [booked_unique, List.pairwise_append]
        refine ⟨hBU, pairwise_no_double_of_unbooked created hunbooked, ?_⟩
        intro a _ c hc hcon
        exact hunbooked c hc hcon.2.1
  · intro bookings id ns hBU hID hWF
    cases hres : booking_change_state bookings id ns with
    | error e =>
        unfold booking_change_state_db
        rw [hres]
        exact hBU
    | ok bs =>
        unfold booking_change_state_db
        rw [hres]
        obtain ⟨booking, hfind, hcon, hbs⟩ :=
          booking_change_state_ok_inv bookings id ns bs hres
        have hbmem : booking ∈ bookings := List.mem_of_find?_eq_some hfind
        have hnd : bookings.Nodup := List.Nodup.of_map _ hID
        have hinj := List.inj_on_of_nodup_map (f := Booking.id) hID
        show booked_unique bs
        rw [hbs, booked_unique, List.pairwise_map]
        refine List.Nodup.pairwise_of_forall_ne hnd ?_
        intro a ha b hb hab hc
        have haid : a.id ≠ b.id := fun he => hab (hinj ha hb he)
        obtain ⟨hsa, hsb, hkid, hwid⟩ := hc
        -- kid and week survive the state write
        have hka : (apply_state_change booking ns a).kid_id = a.kid_id := by
          unfold apply_state_change
          split <;> rfl
        have hkb : (apply_state_change booking ns b).kid_id = b.kid_id := by
          unfold apply_state_change
          split <;> rfl
        have hwa : (apply_state_change booking ns a).week_id = a.week_id := by
          unfold apply_state_change
          split <;> rfl
        have hwb : (apply_state_change booking ns b).week_id = b.week_id := by
          unfold apply_state_change
          split <;> rfl
        rw [hka, hkb] at hkid
        rw [hwa, hwb] at hwid
        cases hma : is_group_member booking a with
        | false =>
            rw [apply_state_change_nonmember booking ns a hma] at hsa
            cases hmb : is_group_member booking b with
            | false =>
                rw [apply_state_change_nonmember booking ns b hmb] at hsb
                exact List.Pairwise.forall no_double_booked_symm hBU ha hb hab
                  ⟨hsa, hsb, hkid, hwid⟩
            | true =>
                -- b is being written to `booked`; a sits in its slot: a conflict
                rw [apply_state_change_member booking ns b hmb] at hsb
                have hnsb : ns = "booked" := hsb
                have hmemb : b ∈ state_group bookings booking := by
                  unfold is_group_member at hmb
                  unfold state_group
                  rcases hg : truthy_group_id booking with _ | g
                  all_goals rw [hg] at hmb
                  · have : b = booking := hinj hb hbmem (by simpa using hmb)
                    rw [this]
                    exact List.mem_singleton.mpr rfl
                  · exact List.mem_filter.mpr ⟨hb, hmb⟩
                have : state_conflicts bookings booking ≠ [] := by
                  refine (state_conflicts_ne_nil bookings booking).mpr
                    ⟨b, hmemb, a, ha, hkid, hwid, ?_, haid⟩
                  intro g hg hag
                  have hbm' : is_group_member booking a = true := by
                    unfold is_group_member
                    rw [hg, hag]
                    simp
                  rw [hbm'] at hma
                  cases hma
                exact this (hcon hnsb)
        | true =>
            rw [apply_state_change_member booking ns a hma] at hsa
            have hnsa : ns = "booked" := hsa
            cases hmb : is_group_member booking b with
            | false =>
                rw [apply_state_change_nonmember booking ns b hmb] at hsb
                have hmema : a ∈ state_group bookings booking := by
                  unfold is_group_member at hma
                  unfold state_group
                  rcases hg : truthy_group_id booking with _ | g
                  all_goals rw [hg] at hma
                  · have : a = booking := hinj ha hbmem (by simpa using hma)
                    rw [this]
                    exact List.mem_singleton.mpr rfl
                  · exact List.mem_filter.mpr ⟨ha, hma⟩
                have : state_conflicts bookings booking ≠ [] := by
                  refine (state_conflicts_ne_nil bookings booking).mpr
                    ⟨a, hmema, b, hb, hkid.symm, hwid.symm, ?_, haid.symm⟩
                  intro g hg hbg
                  have hbm' : is_group_member booking b = true := by
                    unfold is_group_member
                    rw [hg, hbg]
                    simp
                  rw [hbm'] at hmb
                  cases hmb
                exact this (hcon hnsa)
            | true =>
                -- two members of one group in the same slot: excluded by groups_wf
                unfold is_group_member at hma hmb
                rcases hg : truthy_group_id booking with _ | g
                all_goals rw [hg] at hma hmb
                · exact haid ((by simpa using hma : a.id = booking.id).trans
                    (by simpa using hmb : b.id = booking.id).symm)
                · obtain ⟨_, hgne⟩ := truthy_group_id_some booking g hg
                  exact hWF a ha b hb haid g hgne (by simpa using hma)
                    (by simpa using hmb) ⟨hkid, hwid⟩

/-! ## Witnesses -/

/-- Witness for `session_matcher_spec`: the boundary-sharing session
[19, 25] against week [15, 19]. -/
theorem session_matcher_spec_witness :
    ((⟨some 19, some 25, none⟩ : Session) ∈
        api_sessions_for_week [⟨some 19, some 25, none⟩] ⟨"w", 1, 15, 19, false⟩ ↔
      (⟨some 19, some 25, none⟩ : Session) ∈ [(⟨some 19, some 25, none⟩ : Session)] ∧
        api_session_included ⟨some 19, some 25, none⟩ ⟨"w", 1, 15, 19, false⟩ = true) :=
  session_matcher_spec.1 [⟨some 19, some 25, none⟩] ⟨"w", 1, 15, 19, false⟩
    ⟨some 19, some 25, none⟩

/-- Witness for `week_blocking_spec`: one generated week for a kid with
school dates 2 and 13, one overlapping trip [10, 12]; the week comes out
blocked, and the incremental pass is idempotent on it. -/
theorem week_blocking_spec_witness :
    ((⟨"1", 1, 7, 11, true⟩ : Week).is_blocked = true ↔
      ∃ t ∈ [(⟨10, 12⟩ : Trip)],
        t.start_date ≤ (⟨"1", 1, 7, 11, true⟩ : Week).end_date ∧
        t.end_date ≥ (⟨"1", 1, 7, 11, true⟩ : Week).start_date) ∧
    update_week_blocking
        (update_week_blocking [⟨"1", 1, 7, 11, false⟩] [⟨10, 12⟩]).1 [⟨10, 12⟩]
      = ((update_week_blocking [⟨"1", 1, 7, 11, false⟩] [⟨10, 12⟩]).1, 0) := by
  have egen : generate_weeks 13 7 1 = [⟨"1", 1, 7, 11, false⟩] := by
    rw [generate_weeks.eq_def, dif_pos (by norm_num : (7 : Int) + 4 < 13),
        generate_weeks.eq_def, dif_neg (by norm_num : ¬ ((7 : Int) + 7 + 4 < 13))]
    rfl
  have ecalc : calculate_weeks_for_user [⟨some 2, some 13⟩] [⟨10, 12⟩]
      = [⟨"1", 1, 7, 11, true⟩] := by
    show (generate_weeks 13 7 1).map _ = _
    rw [egen]
    rfl
  have hmem : (⟨"1", 1, 7, 11, true⟩ : Week)
      ∈ calculate_weeks_for_user [⟨some 2, some 13⟩] [⟨10, 12⟩] := by
    rw [ecalc]
    exact List.mem_singleton.mpr rfl
  exact ⟨week_blocking_spec.1 [⟨some 2, some 13⟩] [⟨10, 12⟩] _ hmem,
    (week_blocking_spec.2 [⟨"1", 1, 7, 11, false⟩] [⟨10, 12⟩]).2.2⟩

/-- Witness for `week_generation_spec`: the single week generated for a kid
whose school year ends on day 2 (a Wednesday) and restarts on day 13. -/
theorem week_generation_spec_witness :
    first_monday 2 % 7 = 0 ∧ 2 < first_monday 2 ∧ first_monday 2 ≤ 2 + 7 ∧
    ((⟨"1", 1, 7, 11, false⟩ : Week).start_date
        = first_monday 2 + 7 * ((0 : Nat) : Int) ∧
      (⟨"1", 1, 7, 11, false⟩ : Week).end_date
        = (⟨"1", 1, 7, 11, false⟩ : Week).start_date + 4 ∧
      (⟨"1", 1, 7, 11, false⟩ : Week).end_date < 13 ∧
      (⟨"1", 1, 7, 11, false⟩ : Week).week_number = 1 + 0) := by
  have h := week_generation_spec [⟨some 2, some 13⟩] [] 2 13 rfl rfl
  have egen : generate_weeks 13 7 1 = [⟨"1", 1, 7, 11, false⟩] := by
    rw [generate_weeks.eq_def, dif_pos (by norm_num : (7 : Int) + 4 < 13),
        generate_weeks.eq_def, dif_neg (by norm_num : ¬ ((7 : Int) + 7 + 4 < 13))]
    rfl
  have h0 : (calculate_weeks_for_user [⟨some 2, some 13⟩] [])[0]?
      = some ⟨"1", 1, 7, 11, false⟩ := by
    show ((generate_weeks 13 7 1).map _)[0]? = _
    rw [egen]
    rfl
  exact ⟨h.2.1.1, h.2.1.2.1, h.2.1.2.2.1, h.2.2 0 _ h0⟩

/-- Witness for `cleanup_spec`: one legacy row with all three fields
missing next to one fully populated row. -/
theorem cleanup_spec_witness :
    (cleanup_booking ⟨"b0", "k", "s0", "w1", "idea", none, none, none⟩).1.booking_group_id
      = some "b0" ∧
    cleanup_booking ⟨"b1", "k", "s0", "w2", "idea", some "gg", some 3, some 2⟩
      = (⟨"b1", "k", "s0", "w2", "idea", some "gg", some 3, some 2⟩, false) ∧
    bookings_cleanup
        (bookings_cleanup [⟨"b0", "k", "s0", "w1", "idea", none, none, none⟩,
          ⟨"b1", "k", "s0", "w2", "idea", some "gg", some 3, some 2⟩]).1
      = ((bookings_cleanup [⟨"b0", "k", "s0", "w1", "idea", none, none, none⟩,
          ⟨"b1", "k", "s0", "w2", "idea", some "gg", some 3, some 2⟩]).1, 0) :=
  ⟨(cleanup_spec.1 ⟨"b0", "k", "s0", "w1", "idea", none, none, none⟩).2.2.2.2.1 rfl,
   (cleanup_spec.1 ⟨"b1", "k", "s0", "w2", "idea", some "gg", some 3, some 2⟩).2.2.2.2.2.2.2
     "gg" 3 2 (by decide) (by decide) rfl rfl rfl,
   (cleanup_spec.2 _).2 (by decide)⟩

/-- Witness for `booked_exclusivity_preserved`: a booked-state creation on
an empty store, a quick booking next to an unrelated booked row, and a
rejected promotion next to a conflicting idea. -/
theorem booked_exclusivity_preserved_witness :
    booked_unique (booking_new_db [] [⟨"w1", 1, 0, 4, false⟩] ⟨none, none, some 1⟩
      "k" "s" "w1" "booked" "g").1 ∧
    booked_unique (api_quick_booking_db
      [⟨"b0", "k", "s0", "w2", "booked", some "g0", some 1, some 1⟩]
      [⟨"w1", 1, 0, 4, false⟩] ⟨none, none, some 1⟩ "k" "s" "w1" "g").1 ∧
    booked_unique (booking_change_state_db
      [⟨"b0", "k", "s0", "w1", "idea", some "g0", some 1, some 1⟩,
       ⟨"b1", "k", "s1", "w1", "idea", some "g1", some 1, some 1⟩] "b0" "booked").1 :=
  ⟨booked_exclusivity_preserved.1 [] [⟨"w1", 1, 0, 4, false⟩] ⟨none, none, some 1⟩
      "k" "s" "w1" "booked" "g" List.Pairwise.nil (by decide),
   booked_exclusivity_preserved.2.1
      [⟨"b0", "k", "s0", "w2", "booked", some "g0", some 1, some 1⟩]
      [⟨"w1", 1, 0, 4, false⟩] ⟨none, none, some 1⟩ "k" "s" "w1" "g" (by decide),
   booked_exclusivity_preserved.2.2
      [⟨"b0", "k", "s0", "w1", "idea", some "g0", some 1, some 1⟩,
       ⟨"b1", "k", "s1", "w1", "idea", some "g1", some 1, some 1⟩] "b0" "booked"
      (by decide) (by decide)
      (by
        intro a ha b hb hne g hg hag hbg hc
        have ha' : a = ⟨"b0", "k", "s0", "w1", "idea", some "g0", some 1, some 1⟩
            ∨ a = ⟨"b1", "k", "s1", "w1", "idea", some "g1", some 1, some 1⟩ := by
          simpa using ha
        have hb' : b = ⟨"b0", "k", "s0", "w1", "idea", some "g0", some 1, some 1⟩
            ∨ b = ⟨"b1", "k", "s1", "w1", "idea", some "g1", some 1, some 1⟩ := by
          simpa using hb
        rcases ha' with rfl | rfl
        all_goals rcases hb' with rfl | rfl
        · exact hne rfl
        · have e1 : "g0" = g := by simpa using hag
          have e2 : "g1" = g := by simpa using hbg
          exact absurd (e1.trans e2.symm) (by decide)
        · have e1 : "g1" = g := by simpa using hag
          have e2 : "g0" = g := by simpa using hbg
          exact absurd (e1.trans e2.symm) (by decide)
        · exact hne rfl)⟩

/-- Witness for `booked_transition_spec`: promoting one idea while another
group's idea occupies the same kid and week is rejected with the conflict
list and an unchanged store. -/
theorem booked_transition_spec_witness :
    booking_change_state_db
        [⟨"b0", "k", "s0", "w1", "idea", some "g0", some 1, some 1⟩,
         ⟨"b1", "k", "s1", "w1", "idea", some "g1", some 1, some 1⟩] "b0" "booked"
      = ([⟨"b0", "k", "s0", "w1", "idea", some "g0", some 1, some 1⟩,
          ⟨"b1", "k", "s1", "w1", "idea", some "g1", some 1, some 1⟩],
         some (.conflicts (state_conflicts
          [⟨"b0", "k", "s0", "w1", "idea", some "g0", some 1, some 1⟩,
           ⟨"b1", "k", "s1", "w1", "idea", some "g1", some 1, some 1⟩]
          ⟨"b0", "k", "s0", "w1", "idea", some "g0", some 1, some 1⟩))) :=
  ((booked_transition_spec
      [⟨"b0", "k", "s0", "w1", "idea", some "g0", some 1, some 1⟩,
       ⟨"b1", "k", "s1", "w1", "idea", some "g1", some 1, some 1⟩] "b0"
      ⟨"b0", "k", "s0", "w1", "idea", some "g0", some 1, some 1⟩ rfl).2.1
    (by decide)).1

/-- Witness for `booking_creation_all_or_nothing`: the spec's capacity
example — a 2-week session starting at the only remaining week creates
nothing on either path and reports the capacity error. -/
theorem booking_creation_all_or_nothing_witness :
    booking_new_db [] [⟨"w1", 1, 0, 4, false⟩] ⟨none, none, some 2⟩
        "k" "s" "w1" "idea" "g"
      = ([], some (.notEnoughWeeks 2)) ∧
    api_quick_booking_db [] [⟨"w1", 1, 0, 4, false⟩] ⟨none, none, some 2⟩
        "k" "s" "w1" "g"
      = ([], some (.notEnoughWeeks 2)) :=
  (booking_creation_all_or_nothing [] [⟨"w1", 1, 0, 4, false⟩] ⟨none, none, some 2⟩
    "k" "s" "w1" "idea" "g").2.2.1 0 rfl (by decide)

/-- Witness for `booking_creation_shape`: a 2-week creation over two free
weeks yields the two grouped rows. -/
theorem booking_creation_shape_witness :
    (make_group_bookings "k" "s" "idea" "g" 2 1
      [⟨"w1", 1, 0, 4, false⟩, ⟨"w2", 2, 7, 11, false⟩]).length = 2 :=
  (booking_creation_shape.1 [] [⟨"w1", 1, 0, 4, false⟩, ⟨"w2", 2, 7, 11, false⟩]
    ⟨none, none, some 2⟩ "k" "s" "w1" "idea" "g"
    (make_group_bookings "k" "s" "idea" "g" 2 1
      [⟨"w1", 1, 0, 4, false⟩, ⟨"w2", 2, 7, 11, false⟩]) 0 rfl rfl (by simp)).1

/-- Witness for `session_window_buffer`: a session on days 120–125 against
the single week 100–104 triggers the date-range rejection on the form
path. -/
theorem session_window_buffer_witness :
    ∃ wid', booking_new_db [] [⟨"w1", 1, 100, 104, false⟩]
        ⟨some 120, some 125, some 1⟩ "k" "s" "w1" "idea" "g"
      = ([], some (.outsideSessionRange wid')) :=
  session_window_buffer.1 [] [⟨"w1", 1, 100, 104, false⟩]
    ⟨some 120, some 125, some 1⟩ "k" "s" "w1" "idea" "g" 0 120 125 rfl rfl rfl
    (by decide) (by decide)
